import Mathlib

/-!
Verification development for the document-processor pipeline.

The definitions below are a shallow embedding of the TypeScript source:
the DynamoDB-backed `DocumentJobRepository`, the `DocumentProcessorService`
ingest flow, the Textract completion handler, the classification handler,
the SQS batch handler, and the `SchemaValidatorService` (Ajv with
`coerceTypes: true`).  Machine state (the job table, the S3 object store,
the knowledge-base store) is passed explicitly; wall-clock times are `Nat`
parameters; external calls (Textract, Bedrock, S3 availability) are
parameters of the flows.
-/

namespace DocProc

/-- JSON values, with numbers modelled exactly as rationals. -/
inductive Json where
  | null : Json
  | bool (b : Bool) : Json
  | num (q : Rat) : Json
  | str (s : String) : Json
  | arr (xs : List Json) : Json
  | obj (fields : List (String × Json)) : Json

/-- Error classes of the repository (`src/shared/errors`), plus `jsError`
for a plain JavaScript `Error` (thrown e.g. by `SchemaValidatorService`). -/
inductive AppError where
  | validationError (msg : String)
  | databaseError (msg : String)
  | storageError (msg : String)
  | textractError (msg : String)
  | jsError (msg : String)
  deriving DecidableEq, Repr

/-- Message text of an error (`error.message`). -/
def AppError.message : AppError → String
  | .validationError m => m
  | .databaseError m => m
  | .storageError m => m
  | .textractError m => m
  | .jsError m => m

/-- `DocumentProcessingStatus` from `services/textract.service.ts`. -/
inductive DocumentProcessingStatus where
  | SUBMITTED
  | IN_PROGRESS
  | FAILED
  | SUCCEEDED
  | PARTIAL_SUCCESS
  | EXTRACTED
  deriving DecidableEq, Repr

/-- The statuses for which `updateJobStatus` stamps `completedAt`
(the three-way test in `document-job.repository.ts`). -/
def stampsCompleted (s : DocumentProcessingStatus) : Bool :=
  s = .SUCCEEDED || s = .FAILED || s = .PARTIAL_SUCCESS

/-- `DocumentJob` row from `document-job.repository.ts`. -/
structure DocumentJob where
  jobId : String
  documentId : String
  bucket : String
  key : String
  status : DocumentProcessingStatus
  createdAt : Nat
  updatedAt : Nat
  timestamp : Nat
  completedAt : Option Nat
  errorMessage : Option String
  textractFeatures : Option (List String)
  textractJobId : Option String
  deriving DecidableEq, Repr

/-- The DynamoDB table of document jobs. -/
abbrev JobTable := List DocumentJob

/-- `getJob`: look up a job by its `jobId` (secondary index query returning
`Items[0]`, or the scan fallback, both of which yield the first match). -/
def getJob (table : JobTable) (jobId : String) : Option DocumentJob :=
  table.find? (fun j => j.jobId == jobId)

/-- Row transformation performed by `updateJobStatus`: always sets
`updatedAt` and `status`; sets `completedAt := now` exactly when the new
status is SUCCEEDED, FAILED or PARTIAL_SUCCESS; sets `errorMessage` only
when a truthy (non-empty) message is provided. -/
def updateJobStatusRow (j : DocumentJob) (now : Nat)
    (status : DocumentProcessingStatus) (errorMessage : Option String) :
    DocumentJob :=
  { j with
    updatedAt := now
    status := status
    completedAt := if stampsCompleted status then some now else j.completedAt
    errorMessage :=
      match errorMessage with
      | some m => if m ≠ "" then some m else j.errorMessage
      | none => j.errorMessage }

/-- Replace the row(s) at the immutable key `(documentId, timestamp)` of
the fetched job by the transformed row (DynamoDB `UpdateItem`). -/
def writeAtKey (table : JobTable) (documentId : String) (timestamp : Nat)
    (f : DocumentJob → DocumentJob) : JobTable :=
  table.map (fun r =>
    if r.documentId == documentId && r.timestamp == timestamp then f r else r)

/-- `updateJobStatus` from `document-job.repository.ts`: fetch the job by
`jobId`, return `none` when absent, otherwise write the transformed row at
the job's own `(documentId, timestamp)` key and return the new row. -/
def updateJobStatus (table : JobTable) (now : Nat) (jobId : String)
    (status : DocumentProcessingStatus) (errorMessage : Option String) :
    JobTable × Option DocumentJob :=
  match getJob table jobId with
  | none => (table, none)
  | some j =>
      (writeAtKey table j.documentId j.timestamp
        (fun r => updateJobStatusRow r now status errorMessage),
       some (updateJobStatusRow j now status errorMessage))

/-- Attribute patch accepted by `updateJob` (the pipeline only ever patches
these fields; `undefined` entries are skipped by the source). -/
structure JobPatch where
  status : Option DocumentProcessingStatus
  completedAt : Option Nat
  errorMessage : Option String
  textractJobId : Option String
  deriving DecidableEq, Repr

/-- A patch with no attributes. -/
def JobPatch.empty : JobPatch :=
  { status := none, completedAt := none, errorMessage := none,
    textractJobId := none }

/-- Row transformation performed by `updateJob`: always sets `updatedAt`,
then applies every provided attribute verbatim. -/
def applyJobPatch (j : DocumentJob) (now : Nat) (p : JobPatch) : DocumentJob :=
  { j with
    updatedAt := now
    status := match p.status with | some s => s | none => j.status
    completedAt := match p.completedAt with | some t => some t | none => j.completedAt
    errorMessage := match p.errorMessage with | some m => some m | none => j.errorMessage
    textractJobId := match p.textractJobId with | some t => some t | none => j.textractJobId }

/-- `updateJob` from `document-job.repository.ts`: generalized attribute
patch with the same key-resolution discipline as `updateJobStatus`. -/
def updateJob (table : JobTable) (now : Nat) (jobId : String) (p : JobPatch) :
    JobTable × Option DocumentJob :=
  match getJob table jobId with
  | none => (table, none)
  | some j =>
      (writeAtKey table j.documentId j.timestamp (fun r => applyJobPatch r now p),
       some (applyJobPatch j now p))

/-- `getJobsByDocumentId`: index query, store-native order. -/
def getJobsByDocumentId (table : JobTable) (documentId : String) :
    List DocumentJob :=
  table.filter (fun j => j.documentId == documentId)

/-- `findJobsByTextractJobId`: index query (or scan fallback). -/
def findJobsByTextractJobId (table : JobTable) (textractJobId : String) :
    List DocumentJob :=
  table.filter (fun j => j.textractJobId == some textractJobId)

/-- Input to `createJob` (the repository stamps the three time fields). -/
structure NewJob where
  jobId : String
  documentId : String
  bucket : String
  key : String
  status : DocumentProcessingStatus
  textractFeatures : Option (List String)
  deriving DecidableEq, Repr

/-- `createJob`: conditional put (`attribute_not_exists(jobId)` at the item
key) stamping `createdAt = updatedAt = timestamp = now`. -/
def createJob (table : JobTable) (now : Nat) (j : NewJob) :
    Except AppError (JobTable × DocumentJob) :=
  let row : DocumentJob :=
    { jobId := j.jobId, documentId := j.documentId, bucket := j.bucket,
      key := j.key, status := j.status, createdAt := now, updatedAt := now,
      timestamp := now, completedAt := none, errorMessage := none,
      textractFeatures := j.textractFeatures, textractJobId := none }
  if table.any (fun r => r.documentId == j.documentId && r.timestamp == now) then
    .error (.databaseError "Failed to create document job: item already exists")
  else
    .ok (table ++ [row], row)

/-! ## Ingest message DTO (`document-message.dto.ts`) -/

/-- `DocumentMetadata` carried on an ingest message. -/
structure MessageMetadata where
  fileSize : Option String
  contentType : Option String
  deriving DecidableEq, Repr

/-- `DocumentMessage` DTO. -/
structure DocumentMessage where
  bucket : String
  key : String
  timestamp : String
  metadata : Option MessageMetadata
  deriving DecidableEq, Repr

/-- `DocumentMessage.validate` (class-validator `IsNotEmpty` on the three
required string fields). -/
def validateMessage (m : DocumentMessage) : Except AppError Unit :=
  if m.bucket ≠ "" ∧ m.key ≠ "" ∧ m.timestamp ≠ "" then .ok ()
  else .error (.validationError "Document message validation failed")

/-! ## Small JavaScript helpers used by the flows -/

/-- Leading decimal digits of a character list, as `(digits, rest)`. -/
def takeDigits : List Char → List Nat × List Char
  | [] => ([], [])
  | c :: cs =>
      if c.isDigit then
        let (ds, rest) := takeDigits cs
        ((c.toNat - 48) :: ds, rest)
      else ([], c :: cs)

/-- Numeric value of a digit list. -/
def digitsVal (ds : List Nat) : Nat := ds.foldl (fun a d => a * 10 + d) 0

/-- JavaScript `parseInt(s, 10)`: skip leading whitespace, optional sign,
then leading digits; `none` models `NaN` (no digits at all). -/
def parseIntJs (s : String) : Option Int :=
  let cs := s.data.dropWhile (fun c => c = ' ' ∨ c = '\t' ∨ c = '\n' ∨ c = '\r')
  let (neg, cs) :=
    match cs with
    | '-' :: rest => (true, rest)
    | '+' :: rest => (false, rest)
    | rest => (false, rest)
  match takeDigits cs with
  | ([], _) => none
  | (ds, _) => some (if neg then -(digitsVal ds : Int) else (digitsVal ds : Int))

/-- Split a character list at a separator character. -/
def splitOnChar (sep : Char) : List Char → List (List Char)
  | [] => [[]]
  | c :: cs =>
      match splitOnChar sep cs with
      | [] => if c = sep then [[], []] else [[c]]
      | h :: t => if c = sep then [] :: h :: t else (c :: h) :: t

/-- Character-wise lower-casing (`String.prototype.toLowerCase` for the
ASCII names this pipeline handles). -/
def lowerStr (s : String) : String := String.mk (s.data.map Char.toLower)

/-- Whether one character list begins with another. -/
def charsStartWith : List Char → List Char → Bool
  | [], _ => true
  | _ :: _, [] => false
  | a :: as, b :: bs => a = b && charsStartWith as bs

/-- Whether a character list occurs inside another. -/
def charsContain (needle : List Char) : List Char → Bool
  | [] => charsStartWith needle []
  | c :: rest => charsStartWith needle (c :: rest) || charsContain needle rest

/-- JavaScript `String.prototype.includes`. -/
def strIncludes (s needle : String) : Bool :=
  charsContain needle.data s.data

/-- Node `path.extname`, lower-cased by the caller: the final
dot-suffix of the basename (empty for no dot or a leading-dot-only name). -/
def extnameOf (p : String) : String :=
  let base := (splitOnChar '/' p.data).getLastD []
  let parts := splitOnChar '.' base
  if parts.length ≤ 1 then ""
  else if parts.headD [] = [] ∧ parts.length = 2 then ""
  else String.mk ('.' :: parts.getLastD [])

/-! ## `DocumentProcessorService.processDocument` -/

/-- `FeatureType` values used by the service. -/
inductive FeatureType where
  | TABLES
  | FORMS
  | SIGNATURES
  deriving DecidableEq, Repr

/-- The string stored on the job row for a feature. -/
def FeatureType.toStr : FeatureType → String
  | .TABLES => "TABLES"
  | .FORMS => "FORMS"
  | .SIGNATURES => "SIGNATURES"

/-- `SUPPORTED_TEXTRACT_FORMATS`. -/
def supportedTextractFormats : List String :=
  [".pdf", ".png", ".jpg", ".jpeg", ".tiff", ".tif"]

/-- `isFormatSupported`. -/
def isFormatSupported (key : String) : Bool :=
  supportedTextractFormats.contains (lowerStr (extnameOf key))

/-- `DocumentProcessorConfig` (with the repository's defaults merged in by
the caller). -/
structure ProcessorConfig where
  syncSizeThresholdBytes : Int
  defaultFeatures : List FeatureType
  maxDocumentSizeBytes : Int
  deriving DecidableEq, Repr

/-- `DEFAULT_CONFIG` of `DocumentProcessorService`. -/
def defaultProcessorConfig : ProcessorConfig :=
  { syncSizeThresholdBytes := 5 * 1024 * 1024
    defaultFeatures := [.TABLES, .FORMS]
    maxDocumentSizeBytes := 500 * 1024 * 1024 }

/-- `getFeatures`: content-type driven feature selection. -/
def getFeatures (cfg : ProcessorConfig) (m : DocumentMessage) :
    List FeatureType :=
  match m.metadata with
  | some md =>
      match md.contentType with
      | some ct =>
          let lower := lowerStr ct
          if strIncludes lower "pdf" then [.TABLES, .FORMS, .SIGNATURES]
          else if strIncludes lower "image" then [.TABLES, .FORMS]
          else cfg.defaultFeatures
      | none => cfg.defaultFeatures
  | none => cfg.defaultFeatures

/-- `const fileSize = metadata?.fileSize ? parseInt(metadata.fileSize, 10) : 0`
(`none` models `NaN`; a missing or empty `fileSize` string is falsy and
yields `0`). -/
def messageFileSize (m : DocumentMessage) : Option Int :=
  match m.metadata with
  | none => some 0
  | some md =>
      match md.fileSize with
      | none => some 0
      | some s => if s = "" then some 0 else parseIntJs s

/-- `useSync`: `fileSize > 0 && fileSize < threshold` (every comparison
with `NaN` is false). -/
def useSyncRoute (cfg : ProcessorConfig) (fileSize : Option Int) : Bool :=
  match fileSize with
  | some n => n > 0 && n < cfg.syncSizeThresholdBytes
  | none => false

/-- `fileSize > maxDocumentSizeBytes` (false for `NaN`). -/
def exceedsMaxSize (cfg : ProcessorConfig) (fileSize : Option Int) : Bool :=
  match fileSize with
  | some n => n > cfg.maxDocumentSizeBytes
  | none => false

/-- Deterministic environment of one `processDocument` invocation: the two
generated UUIDs and the outcomes of the Textract gateway calls. -/
structure ProcessEnv where
  documentId : String
  jobId : String
  syncResult : Except AppError Json
  asyncStart : Except AppError String

/-- Gateway calls observable from `processDocument`. -/
inductive GatewayCall where
  | analyzeSync
  | startAsync
  deriving DecidableEq, Repr

/-- Outcome of one `processDocument` invocation: the job table afterwards,
the returned job id or thrown error, the sequence of status values written
through `updateJobStatus`, and the gateway calls made. -/
structure ProcessOutcome where
  table : JobTable
  result : Except AppError String
  statusWrites : List DocumentProcessingStatus
  calls : List GatewayCall
  s3Puts : List ((String × String) × Json)

/-- The outer catch of `processDocument`: `ValidationError`, `StorageError`
and `TextractError` are re-thrown as-is, anything else is wrapped into a
`TextractError`. -/
def wrapOuterCatch (e : AppError) : AppError :=
  match e with
  | .validationError m => .validationError m
  | .storageError m => .storageError m
  | .textractError m => .textractError m
  | e => .textractError ("Failed to process document: " ++ e.message)

/-- `DocumentProcessorService.processDocument`, from `part_013`: validate
the message, reject unsupported formats and oversized files, create the
SUBMITTED job row, then route by size: the synchronous branch marks
IN_PROGRESS, calls `analyzeDocumentSync` (discarding its result) and marks
SUCCEEDED; the asynchronous branch marks IN_PROGRESS, calls
`startDocumentAnalysis` and patches the returned `textractJobId` onto the
row; a failure after job creation marks the job FAILED with the error
message and re-throws. -/
def processDocument (cfg : ProcessorConfig) (env : ProcessEnv)
    (table : JobTable) (now : Nat) (m : DocumentMessage) : ProcessOutcome :=
  match validateMessage m with
  | .error e => ⟨table, .error (wrapOuterCatch e), [], [], []⟩
  | .ok () =>
    if ¬ isFormatSupported m.key then
      ⟨table, .error (wrapOuterCatch
        (.validationError "Unsupported document format for Textract")), [], [], []⟩
    else
      let fileSize := messageFileSize m
      if exceedsMaxSize cfg fileSize then
        ⟨table, .error (wrapOuterCatch
          (.validationError "Document exceeds maximum size limit")), [], [], []⟩
      else
        let features := getFeatures cfg m
        let newJob : NewJob :=
          { jobId := env.jobId, documentId := env.documentId,
            bucket := m.bucket, key := m.key, status := .SUBMITTED,
            textractFeatures := some (features.map FeatureType.toStr) }
        match createJob table now newJob with
        | .error e => ⟨table, .error (wrapOuterCatch e), [], [], []⟩
        | .ok (table1, _row) =>
          if useSyncRoute cfg fileSize then
            let (table2, _) := updateJobStatus table1 now env.jobId .IN_PROGRESS none
            match env.syncResult with
            | .error e =>
                let (table3, _) :=
                  updateJobStatus table2 now env.jobId .FAILED (some e.message)
                ⟨table3, .error (wrapOuterCatch e),
                 [.IN_PROGRESS, .FAILED], [.analyzeSync], []⟩
            | .ok _result =>
                let (table3, _) := updateJobStatus table2 now env.jobId .SUCCEEDED none
                ⟨table3, .ok env.jobId,
                 [.IN_PROGRESS, .SUCCEEDED], [.analyzeSync], []⟩
          else
            let (table2, _) := updateJobStatus table1 now env.jobId .IN_PROGRESS none
            match env.asyncStart with
            | .error e =>
                let (table3, _) :=
                  updateJobStatus table2 now env.jobId .FAILED (some e.message)
                ⟨table3, .error (wrapOuterCatch e),
                 [.IN_PROGRESS, .FAILED], [.startAsync], []⟩
            | .ok textractJobId =>
                let (table3, _) := updateJob table2 now env.jobId
                  { JobPatch.empty with textractJobId := some textractJobId }
                ⟨table3, .ok env.jobId, [.IN_PROGRESS], [.startAsync], []⟩

/-! ## Object storage model (S3) -/

/-- The S3 object store: newest write first, one entry per `(bucket, key)`. -/
abbrev S3State := List ((String × String) × Json)

/-- `PutObject`: overwrite the value at `(bucket, key)`. -/
def s3Put (s3 : S3State) (bucket key : String) (v : Json) : S3State :=
  ((bucket, key), v) :: s3.filter (fun e => ¬ (e.1 = (bucket, key)))

/-- `GetObject`: `none` is not-found. -/
def s3Get (s3 : S3State) (bucket key : String) : Option Json :=
  (s3.find? (fun e => e.1 == (bucket, key))).map (fun e => e.2)

/-! ## Textract completion handler (`textract-completion.handler.ts`) -/

/-- The two result APIs of the completion handler. -/
inductive TextractApi where
  | analysis
  | detection
  deriving DecidableEq, Repr

/-- Environment of one completion invocation: the page sequences the two
result APIs would return for this external job, and whether the S3 put
succeeds. -/
structure CompletionEnv where
  analysisPages : List Json
  detectionPages : List Json
  s3PutOk : Bool

/-- One paginated fetch: page `i`, and `NextToken := i + 1` while more
pages remain. -/
def fetchResultPage (pages : List Json) (i : Nat) : Json × Option Nat :=
  (pages.getD i Json.null, if i + 1 < pages.length then some (i + 1) else none)

/-- The `do … while (nextToken)` loop of `getTextractResults`, pushing each
page response and following the continuation token. -/
def fetchAllPages (pages : List Json) : Nat → Nat → List Json
  | 0, _ => []
  | fuel + 1, i =>
      let (page, next) := fetchResultPage pages i
      match next with
      | none => [page]
      | some j => page :: fetchAllPages pages fuel j

/-- `getTextractResults`: choose the analysis API when the job has
features, the text-detection API otherwise, then follow `NextToken` until
exhausted. -/
def getTextractResults (env : CompletionEnv) (hasFeatures : Bool) :
    List Json × TextractApi :=
  let pages := if hasFeatures then env.analysisPages else env.detectionPages
  (fetchAllPages pages pages.length 0,
   if hasFeatures then .analysis else .detection)

/-- A parsed Textract SNS completion notification. -/
structure CompletionMessage where
  jobId : Option String
  status : String
  deriving DecidableEq, Repr

/-- Outcome of one completion-notification processing; `resolved` is the
job row as fetched (before the status update) and `storedKey` the S3
coordinates written. -/
structure CompletionOutcome where
  table : JobTable
  s3 : S3State
  result : Except AppError Unit
  apiUsed : Option TextractApi
  resolved : Option DocumentJob
  storedKey : Option (String × String)

/-- `job.textractFeatures && job.textractFeatures.length > 0`. -/
def jobHasFeatures (j : DocumentJob) : Bool :=
  match j.textractFeatures with
  | some l => decide (l ≠ [])
  | none => false

/-- `processTextractCompletionHandler`: resolve the job by external job id
(`Items[0]` of `findJobsByTextractJobId`), pick the result API by whether
`textractFeatures` is a non-empty list, fetch every page, store the
concatenated result at `extracted/(documentId).json`, then mark the job
EXTRACTED; any error is re-thrown with no status written. -/
def processTextractCompletion (env : CompletionEnv) (table : JobTable)
    (s3 : S3State) (now : Nat) (msg : CompletionMessage) : CompletionOutcome :=
  match msg.jobId with
  | none =>
      ⟨table, s3,
       .error (.textractError "No JobId found in Textract notification"),
       none, none, none⟩
  | some textractJobId =>
    match findJobsByTextractJobId table textractJobId with
    | [] =>
        ⟨table, s3, .error (.textractError "Job not found in database"),
         none, none, none⟩
    | job :: _rest =>
      let hasFeatures := jobHasFeatures job
      let (pages, api) := getTextractResults env hasFeatures
      let resultKey := "extracted/" ++ job.documentId ++ ".json"
      if env.s3PutOk then
        let s3' := s3Put s3 job.bucket resultKey (Json.arr pages)
        let (table', _) := updateJobStatus table now job.jobId .EXTRACTED none
        ⟨table', s3', .ok (), some api, some job, some (job.bucket, resultKey)⟩
      else
        ⟨table, s3,
         .error (.storageError "Failed to store Textract results"),
         some api, some job, none⟩

/-! ## JSON parsing (`JSON.parse`) -/

/-- JSON whitespace. -/
def jsonWs (c : Char) : Bool := c = ' ' || c = '\n' || c = '\t' || c = '\r'

/-- Skip JSON whitespace. -/
def skipJsonWs (cs : List Char) : List Char := cs.dropWhile jsonWs

/-- Value of a hexadecimal digit. -/
def hexVal (c : Char) : Option Nat :=
  if c.isDigit then some (c.toNat - 48)
  else if 'a' ≤ c ∧ c ≤ 'f' then some (c.toNat - 87)
  else if 'A' ≤ c ∧ c ≤ 'F' then some (c.toNat - 55)
  else none

/-- Body of a JSON string after the opening quote, with escapes; returns
the decoded characters and the input after the closing quote. -/
def parseStringChars : Nat → List Char → Option (List Char × List Char)
  | 0, _ => none
  | _fuel + 1, [] => none
  | fuel + 1, c :: cs =>
    if c = '"' then some ([], cs)
    else if c = '\\' then
      match cs with
      | [] => none
      | e :: cs' =>
        let decoded : Option (Char × List Char) :=
          if e = '"' then some ('"', cs')
          else if e = '\\' then some ('\\', cs')
          else if e = '/' then some ('/', cs')
          else if e = 'b' then some (Char.ofNat 8, cs')
          else if e = 'f' then some (Char.ofNat 12, cs')
          else if e = 'n' then some ('\n', cs')
          else if e = 'r' then some ('\r', cs')
          else if e = 't' then some ('\t', cs')
          else if e = 'u' then
            match cs' with
            | h1 :: h2 :: h3 :: h4 :: cs'' =>
              match hexVal h1, hexVal h2, hexVal h3, hexVal h4 with
              | some a, some b, some c3, some d =>
                  some (Char.ofNat (((a * 16 + b) * 16 + c3) * 16 + d), cs'')
              | _, _, _, _ => none
            | _ => none
          else none
        match decoded with
        | some (ch, rest) =>
            (parseStringChars fuel rest).map (fun p => (ch :: p.1, p.2))
        | none => none
    else if c.toNat < 32 then none
    else (parseStringChars fuel cs).map (fun p => (c :: p.1, p.2))

/-- A JSON number: optional minus, integer part without leading zeros,
optional fraction, optional exponent; exact rational value. -/
def parseNumber (cs : List Char) : Option (Rat × List Char) :=
  let (neg, cs1) :=
    match cs with
    | '-' :: rest => (true, rest)
    | rest => (false, rest)
  let intPart : Option (List Nat × List Char) :=
    match cs1 with
    | '0' :: rest => some ([0], rest)
    | c :: _ =>
        if c.isDigit ∧ c ≠ '0' then some (takeDigits cs1) else none
    | [] => none
  match intPart with
  | none => none
  | some (ids, cs2) =>
    let fracPart : Option (List Nat × List Char) :=
      match cs2 with
      | '.' :: rest =>
          match takeDigits rest with
          | ([], _) => none
          | (ds, r) => some (ds, r)
      | rest => some ([], rest)
    match fracPart with
    | none => none
    | some (fds, cs3) =>
      let expPart : Option (Int × List Char) :=
        match cs3 with
        | c :: rest =>
          if c = 'e' ∨ c = 'E' then
            let (esign, rest2) :=
              match rest with
              | '-' :: r => ((-1 : Int), r)
              | '+' :: r => ((1 : Int), r)
              | r => ((1 : Int), r)
            match takeDigits rest2 with
            | ([], _) => none
            | (eds, r) => some (esign * (digitsVal eds : Int), r)
          else some (0, c :: rest)
        | [] => some (0, [])
      match expPart with
      | none => none
      | some (e, cs4) =>
        let mant : Int := (digitsVal (ids ++ fds) : Int)
        let signedNum : Int := if neg then -mant else mant
        let value : Rat :=
          if 0 ≤ e then
            mkRat (signedNum * ((10 ^ e.toNat : Nat) : Int)) (10 ^ fds.length)
          else
            mkRat signedNum (10 ^ (fds.length + e.natAbs))
        some (value, cs4)

mutual

/-- One JSON value (fuel-indexed recursive-descent). -/
def parseJsonValue : Nat → List Char → Option (Json × List Char)
  | 0, _ => none
  | fuel + 1, cs =>
    match cs with
    | [] => none
    | 'n' :: 'u' :: 'l' :: 'l' :: rest => some (.null, rest)
    | 't' :: 'r' :: 'u' :: 'e' :: rest => some (.bool true, rest)
    | 'f' :: 'a' :: 'l' :: 's' :: 'e' :: rest => some (.bool false, rest)
    | '"' :: rest =>
        (parseStringChars (rest.length + 1) rest).map
          (fun p => (.str (String.mk p.1), p.2))
    | '[' :: rest =>
        match skipJsonWs rest with
        | ']' :: rest2 => some (.arr [], rest2)
        | rest2 => (parseJsonItems fuel rest2).map (fun p => (.arr p.1, p.2))
    | '{' :: rest =>
        match skipJsonWs rest with
        | '}' :: rest2 => some (.obj [], rest2)
        | rest2 => (parseJsonMembers fuel rest2).map (fun p => (.obj p.1, p.2))
    | c :: _ =>
        if c = '-' ∨ c.isDigit then
          (parseNumber cs).map (fun p => (.num p.1, p.2))
        else none

/-- Comma-separated array items up to the closing bracket. -/
def parseJsonItems : Nat → List Char → Option (List Json × List Char)
  | 0, _ => none
  | fuel + 1, cs =>
    match parseJsonValue fuel (skipJsonWs cs) with
    | none => none
    | some (v, rest) =>
      match skipJsonWs rest with
      | ',' :: rest2 =>
          (parseJsonItems fuel rest2).map (fun p => (v :: p.1, p.2))
      | ']' :: rest2 => some ([v], rest2)
      | _ => none

/-- Comma-separated object members up to the closing brace. -/
def parseJsonMembers : Nat → List Char →
    Option (List (String × Json) × List Char)
  | 0, _ => none
  | fuel + 1, cs =>
    match skipJsonWs cs with
    | '"' :: rest =>
      match parseStringChars (rest.length + 1) rest with
      | none => none
      | some (keyChars, rest2) =>
        match skipJsonWs rest2 with
        | ':' :: rest3 =>
          match parseJsonValue fuel (skipJsonWs rest3) with
          | none => none
          | some (v, rest4) =>
            match skipJsonWs rest4 with
            | ',' :: rest5 =>
                (parseJsonMembers fuel rest5).map
                  (fun p => ((String.mk keyChars, v) :: p.1, p.2))
            | '}' :: rest5 => some ([(String.mk keyChars, v)], rest5)
            | _ => none
        | _ => none
    | _ => none

end

/-- `JSON.parse`: one value, then only trailing whitespace. -/
def jsonParse (s : String) : Option Json :=
  match parseJsonValue (2 * s.length + 2) (skipJsonWs s.data) with
  | some (v, rest) => if skipJsonWs rest = [] then some v else none
  | none => none

/-! ## `SchemaValidatorService` (`part_017`) -/

/-- The greedy match of the regular expression used by
`parseJsonFromLlmResponse`: the substring of the response from its first
opening brace through its last closing brace, or `none` when no such span
exists. -/
def regexBraceSpan (s : String) : Option String :=
  match s.data.dropWhile (fun c => ¬ (c = '{')) with
  | [] => none
  | c :: cs =>
    match (c :: cs).reverse.dropWhile (fun c => ¬ (c = '}')) with
    | [] => none
    | d :: ds => some (String.mk (d :: ds).reverse)

/-- `parseJsonFromLlmResponse`: take the regex match and `JSON.parse` it;
both a missing match and a parse failure throw a plain `Error`. -/
def parseJsonFromLlmResponse (response : String) : Except AppError Json :=
  match regexBraceSpan response with
  | none => .error (.jsError
      "Failed to parse JSON from LLM response: No JSON object found in response")
  | some span =>
    match jsonParse span with
    | some v => .ok v
    | none => .error (.jsError
        "Failed to parse JSON from LLM response: Unexpected token")

/-- Modelled from the spec: the first balanced JSON object of a text, read
by brace counting from the first opening brace (the extraction the spec
says `parseJsonFromLlmResponse` performs). -/
def scanBalanced : List Char → Nat → List Char → Option String
  | [], _, _ => none
  | c :: cs, depth, acc =>
      if c = '{' then scanBalanced cs (depth + 1) (c :: acc)
      else if c = '}' then
        if depth = 1 then some (String.mk (c :: acc).reverse)
        else scanBalanced cs (depth - 1) (c :: acc)
      else scanBalanced cs depth (c :: acc)

/-- Modelled from the spec: extract the first balanced JSON object from
the text (`none` when the text has no such object). -/
def firstBalancedJsonSpan (s : String) : Option String :=
  match s.data.dropWhile (fun c => ¬ (c = '{')) with
  | '{' :: tail => scanBalanced tail 1 ['{']
  | _ => none

/-- JSON-schema fragment sufficient for the two classification schemas. -/
inductive Schema where
  | sString (minLength : Option Nat) (enumVals : Option (List String))
  | sNumber (minimum : Option Rat) (maximum : Option Rat)
  | sObject (required : List String) (props : List (String × Schema))
      (addProps : Option Schema)
  | sArray (items : Schema)

/-- Sequence an option-producing function over a list, failing if any
element fails (the effect of Ajv validating every member). -/
def optionMapList {A B : Type} (f : A → Option B) : List A → Option (List B)
  | [] => some []
  | x :: xs =>
      match f x with
      | none => none
      | some y =>
          match optionMapList f xs with
          | none => none
          | some ys => some (y :: ys)

/-- A numeric string accepted by Ajv type coercion to `number`. -/
def numFromString (s : String) : Option Rat :=
  match parseNumber s.data with
  | some (q, []) => some q
  | _ => none

/-- Ajv `coerceTypes: true`, coercion to `string`: numbers and booleans
are converted, everything else fails. -/
def coerceToString (v : Json) : Option String :=
  match v with
  | .str s => some s
  | .num q => some (toString q)
  | .bool b => some (if b then "true" else "false")
  | _ => none

/-- Ajv `coerceTypes: true`, coercion to `number`: numeric strings are
converted, everything else fails. -/
def coerceToNumber (v : Json) : Option Rat :=
  match v with
  | .num q => some q
  | .str s => numFromString s
  | _ => none

/-- The Ajv validator compiled for a schema, with `coerceTypes: true`:
returns the (possibly coerced) data on success, `none` on a validation
failure.  Unknown object members with no `additionalProperties` schema are
accepted unvalidated, as Ajv does by default. -/
def ajvValidate : Nat → Schema → Json → Option Json
  | 0, _, _ => none
  | fuel + 1, sch, v =>
    match sch with
    | .sString minLen enumVals =>
      match coerceToString v with
      | some s =>
          if (match minLen with | some m => decide (m ≤ s.length) | none => true) &&
             (match enumVals with | some es => es.contains s | none => true) then
            some (.str s)
          else none
      | none => none
    | .sNumber lo hi =>
      match coerceToNumber v with
      | some q =>
          if (match lo with | some a => decide (a ≤ q) | none => true) &&
             (match hi with | some b => decide (q ≤ b) | none => true) then
            some (.num q)
          else none
      | none => none
    | .sArray items =>
      match v with
      | .arr xs => (optionMapList (fun x => ajvValidate fuel items x) xs).map .arr
      | _ => none
    | .sObject req props addl =>
      match v with
      | .obj fields =>
        if req.all (fun r => (fields.lookup r).isSome) then
          (optionMapList (fun (kv : String × Json) =>
            match props.lookup kv.1 with
            | some sch1 => (ajvValidate fuel sch1 kv.2).map (fun w => (kv.1, w))
            | none =>
              match addl with
              | some sch2 => (ajvValidate fuel sch2 kv.2).map (fun w => (kv.1, w))
              | none => some kv) fields).map .obj
        else none
      | _ => none

lemma ajvValidate_obj (fuel : Nat) (req : List String)
    (props : List (String × Schema)) (addl : Option Schema)
    (fields : List (String × Json)) :
    ajvValidate (fuel + 1) (.sObject req props addl) (.obj fields) =
      if req.all (fun r => (fields.lookup r).isSome) then
        (optionMapList (fun (kv : String × Json) =>
          match props.lookup kv.1 with
          | some sch1 => (ajvValidate fuel sch1 kv.2).map (fun w => (kv.1, w))
          | none =>
            match addl with
            | some sch2 => (ajvValidate fuel sch2 kv.2).map (fun w => (kv.1, w))
            | none => some kv) fields).map .obj
      else none := rfl

lemma ajvValidate_str (fuel : Nat) (minLen : Option Nat)
    (enumVals : Option (List String)) (s : String) :
    ajvValidate (fuel + 1) (.sString minLen enumVals) (.str s) =
      if (match minLen with | some m => decide (m ≤ s.length) | none => true) &&
         (match enumVals with | some es => es.contains s | none => true) then
        some (.str s)
      else none := rfl

lemma ajvValidate_num (fuel : Nat) (lo hi : Option Rat) (q : Rat) :
    ajvValidate (fuel + 1) (.sNumber lo hi) (.num q) =
      if (match lo with | some a => decide (a ≤ q) | none => true) &&
         (match hi with | some b => decide (q ≤ b) | none => true) then
        some (.num q)
      else none := rfl

/-- The fixed `documentType.type` enumeration of the banking schema. -/
def bankingTypeEnum : List String :=
  ["KYC_FORM", "CREDIT_APPLICATION", "LOAN_CONTRACT", "BANK_STATEMENT",
   "TRANSACTION_RECEIPT", "ID_CARD", "PASSPORT", "UTILITY_BILL",
   "SALARY_SLIP", "OTHER"]

/-- `getBankingClassificationSchema`, field for field. -/
def bankingClassificationSchema : Schema :=
  .sObject ["overallConfidence", "documentType", "summary"]
    [("overallConfidence", .sNumber (some (mkRat 0 1)) (some (mkRat 1 1))),
     ("documentType", .sObject ["type", "confidence"]
        [("type", .sString none (some bankingTypeEnum)),
         ("confidence", .sNumber (some (mkRat 0 1)) (some (mkRat 1 1))),
         ("alternatives", .sObject [] []
            (some (.sNumber (some (mkRat 0 1)) (some (mkRat 1 1)))))]
        none),
     ("summary", .sString (some 1) none),
     ("entities", .sArray (.sObject ["type", "value", "confidence"]
        [("type", .sString (some 1) none),
         ("value", .sString none none),
         ("confidence", .sNumber (some (mkRat 0 1)) (some (mkRat 1 1)))]
        none)),
     ("metadata", .sObject [] [] (some (.sString none none)))]
    none

/-- `SchemaValidatorService.validate` applied to the banking schema: the
compiled validator either returns the (possibly coerced) data or throws a
plain `Error` (not the domain `ValidationError` class). -/
def validateBankingClassification (data : Json) : Except AppError Json :=
  match ajvValidate 16 bankingClassificationSchema data with
  | some coerced => .ok coerced
  | none => .error (.jsError "Schema validation failed")

/-! ## Classification handler (`part_021`) -/

/-- A parsed classification queue message (fields may be missing). -/
structure ClassifyMessage where
  documentId : Option String
  bucket : Option String
  key : Option String
  deriving DecidableEq, Repr

/-- An SQS record carrying a classification message. -/
structure ClassifyRecord where
  messageId : String
  msg : ClassifyMessage
  deriving DecidableEq, Repr

/-- JavaScript truthiness of an optional string field. -/
def jsTruthy : Option String → Bool
  | some s => s ≠ ""
  | none => false

/-- Environment of the classification flow: the resolved knowledge base
(already verified active) if any, the raw LLM response text, and the
availability of the knowledge-base store and of S3 puts. -/
structure ClassifyEnv where
  kbId : Option String
  llmResponse : String
  kbStoreOk : Bool
  s3PutOk : Bool

/-- Knowledge-base repository entries, keyed by id. -/
abbrev KbStore := List (String × Json)

/-- Shared pipeline state touched by the classification flow. -/
structure PipelineState where
  table : JobTable
  s3 : S3State
  kb : KbStore

/-- The helper `updateJobStatus` of the classification handler: take the
first job for the document and patch `status := SUCCEEDED` together with
`completedAt`; a missing job or a store error is swallowed. -/
def classificationMarkSucceeded (table : JobTable) (now : Nat)
    (documentId : String) : JobTable :=
  match getJobsByDocumentId table documentId with
  | [] => table
  | job :: _ =>
      (updateJob table now job.jobId
        { JobPatch.empty with status := some .SUCCEEDED,
                              completedAt := some now }).1

/-- `processClassificationRecord`: require all three message fields
(truthiness), check the document exists in S3, fetch its content, classify
via the LLM (directly or knowledge-base augmented — both end in
`parseJsonFromLlmResponse` and schema validation), then store the result
at `classified/(documentId).json`, append a knowledge-base entry, and mark
the first job of the document SUCCEEDED.  Any failure re-throws with the
pipeline state unchanged. -/
def processClassificationRecord (env : ClassifyEnv) (st : PipelineState)
    (now : Nat) (r : ClassifyRecord) : PipelineState × Except AppError Unit :=
  if ¬ (jsTruthy r.msg.documentId && jsTruthy r.msg.bucket && jsTruthy r.msg.key) then
    (st, .error (.jsError
      "Invalid message structure: Missing documentId, bucket, or key properties"))
  else
    let documentId := r.msg.documentId.getD ""
    let bucket := r.msg.bucket.getD ""
    let key := r.msg.key.getD ""
    match s3Get st.s3 bucket key with
    | none => (st, .error (.jsError ("Document not found: " ++ bucket ++ "/" ++ key)))
    | some _content =>
      match parseJsonFromLlmResponse env.llmResponse with
      | .error e => (st, .error e)
      | .ok rawJson =>
        match validateBankingClassification rawJson with
        | .error e => (st, .error e)
        | .ok classification =>
          if ¬ env.kbStoreOk then
            (st, .error (.jsError "Failed to store knowledge base entry"))
          else
            let kb' := (documentId ++ "-classification", classification) :: st.kb
            if ¬ env.s3PutOk then
              ({ st with kb := kb' },
               .error (.storageError "Failed to store classification results"))
            else
              let classifiedKey := "classified/" ++ documentId ++ ".json"
              let stored : Json := .obj
                [("documentId", .str documentId),
                 ("classification", classification),
                 ("extractedAt", .num (mkRat (now : Int) 1))]
              let s3' := s3Put st.s3 bucket classifiedKey stored
              let table' := classificationMarkSucceeded st.table now documentId
              ({ table := table', s3 := s3', kb := kb' }, .ok ())

/-- The classification SQS handler: a `for … of` loop that catches each
record's error, logs it and continues; the handler returns `void`, so the
returned list of reported batch-item failures is empty by construction. -/
def classificationHandler (env : ClassifyEnv) (st : PipelineState) (now : Nat) :
    List ClassifyRecord → PipelineState × List String
  | [] => (st, [])
  | r :: rs =>
      let (st', _res) := processClassificationRecord env st now r
      classificationHandler env st' now rs

/-! ## Document-processor SQS batch handler (`part_023`) -/

/-- An SQS record as seen by the batch handler, processed by a per-record
function (the record's parse + `processDocument` pipeline). -/
structure SqsRec where
  messageId : String
  deriving DecidableEq, Repr

/-- The settle-time push loop of the batch handler: as each record's
promise settles, its `messageId` is pushed onto `successfulMessageIds` or
`failedMessageIds`.  The list argument is the promise-COMPLETION order —
the source starts all record promises concurrently
(`event.Records.map(async …)` with `Promise.allSettled`), so the pushes
happen in whatever order the promises settle, some permutation of the
batch. -/
def sqsBatchCollect (proc : SqsRec → Except AppError String) :
    List SqsRec → List String × List String → List String × List String
  | [], acc => acc
  | r :: rs, acc =>
      match proc r with
      | .ok _ => sqsBatchCollect proc rs (acc.1 ++ [r.messageId], acc.2)
      | .error _ => sqsBatchCollect proc rs (acc.1, acc.2 ++ [r.messageId])

/-- `handler` (document processor SQS): returns the `batchItemFailures`
identifiers accumulated over the given promise-completion order, which
the scheduler chooses as an arbitrary permutation of the batch. -/
def sqsBatchHandler (proc : SqsRec → Except AppError String)
    (order : List SqsRec) : List String :=
  (sqsBatchCollect proc order ([], [])).2

/-! ## Theorems -/

/-- A job row in a terminal state, for concrete instantiations. -/
def succeededJob : DocumentJob :=
  { jobId := "job-1", documentId := "doc-1", bucket := "b", key := "k.pdf",
    status := .SUCCEEDED, createdAt := 1, updatedAt := 2, timestamp := 1,
    completedAt := some 2, errorMessage := none,
    textractFeatures := some ["TABLES"], textractJobId := some "tx-1" }

/-- C1, counterexample: `updateJobStatus` applies a further transition to a
job already in the terminal state SUCCEEDED — the table afterwards holds
the job with status IN_PROGRESS, which is not the operator-retry reset to
SUBMITTED the claim permits. -/
theorem terminal_job_transition_counterexample :
    succeededJob.status = .SUCCEEDED ∧
    ((updateJobStatus [succeededJob] 5 "job-1" .IN_PROGRESS none).1.map
      (fun r => r.status)) = [.IN_PROGRESS] ∧
    DocumentProcessingStatus.IN_PROGRESS ≠ .SUBMITTED := by
  refine ⟨rfl, ?_, by decide⟩
  rfl

/-- C1, amended: `updateJobStatus` and `updateJob` contain no
terminal-state guard — whenever the job they fetch is terminal (SUCCEEDED
or FAILED), they still apply the requested status unconditionally. -/
theorem update_ops_have_no_terminal_guard
    (table : JobTable) (now : Nat) (jobId : String)
    (s : DocumentProcessingStatus) (err : Option String) (p : JobPatch)
    (j : DocumentJob) (hj : getJob table jobId = some j)
    (hterm : j.status = .SUCCEEDED ∨ j.status = .FAILED) :
    ((updateJobStatus table now jobId s err).2.map (fun r => r.status) = some s) ∧
    (∀ s2, p.status = some s2 →
      (updateJob table now jobId p).2.map (fun r => r.status) = some s2) := by
  constructor
  · simp [updateJobStatus, hj, updateJobStatusRow]
  · intro s2 hs2
    simp [updateJob, hj, applyJobPatch, hs2]

/-- C1 witness. -/
theorem update_ops_have_no_terminal_guard_witness :
    ((updateJobStatus [succeededJob] 5 "job-1" .IN_PROGRESS none).2.map
      (fun r => r.status) = some .IN_PROGRESS) ∧
    (∀ s2, ({ JobPatch.empty with status := some .EXTRACTED } : JobPatch).status
        = some s2 →
      (updateJob [succeededJob] 5 "job-1"
        { JobPatch.empty with status := some .EXTRACTED }).2.map
        (fun r => r.status) = some s2) :=
  update_ops_have_no_terminal_guard [succeededJob] 5 "job-1" .IN_PROGRESS none
    { JobPatch.empty with status := some .EXTRACTED } succeededJob
    (by rfl) (Or.inl rfl)

/-- C2: `updateJobStatus` stamps `completedAt := now` exactly when the new
status is SUCCEEDED, FAILED or PARTIAL_SUCCESS, leaves it untouched for
SUBMITTED, IN_PROGRESS and EXTRACTED (so on a row without `completedAt`
the field ends up set iff the new status is terminal), and the
classification stage that marks a job SUCCEEDED patches `completedAt`
together with the status. -/
theorem completedAt_iff_terminal_status
    (table : JobTable) (now : Nat) (jobId : String)
    (s : DocumentProcessingStatus) (err : Option String)
    (j j2 : DocumentJob) (hj : getJob table jobId = some j)
    (h2 : (updateJobStatus table now jobId s err).2 = some j2)
    (tbl2 : JobTable) (dnow : Nat) (documentId : String) :
    ((s = .SUCCEEDED ∨ s = .FAILED ∨ s = .PARTIAL_SUCCESS) →
      j2.completedAt = some now) ∧
    ((s = .SUBMITTED ∨ s = .IN_PROGRESS ∨ s = .EXTRACTED) →
      j2.completedAt = j.completedAt) ∧
    (j.completedAt = none →
      (j2.completedAt ≠ none ↔
        (s = .SUCCEEDED ∨ s = .FAILED ∨ s = .PARTIAL_SUCCESS))) ∧
    (∀ job rest, getJobsByDocumentId tbl2 documentId = job :: rest →
      getJob tbl2 job.jobId = some job →
      ∀ r ∈ classificationMarkSucceeded tbl2 dnow documentId,
        (r.documentId = job.documentId ∧ r.timestamp = job.timestamp) →
        r.status = .SUCCEEDED ∧ r.completedAt = some dnow) := by
  have hj2 : j2 = updateJobStatusRow j now s err := by
    simp [updateJobStatus, hj] at h2
    exact h2.symm
  subst hj2
  refine ⟨?_, ?_, ?_, ?_⟩
  · rintro (rfl | rfl | rfl) <;> simp [updateJobStatusRow, stampsCompleted]
  · rintro (rfl | rfl | rfl) <;> simp [updateJobStatusRow, stampsCompleted]
  · intro hnone
    constructor
    · intro hne
      by_contra hns
      push_neg at hns
      obtain ⟨h1, h2', h3⟩ := hns
      have hs : stampsCompleted s = false := by
        cases s <;> simp_all [stampsCompleted]
      simp [updateJobStatusRow, hs, hnone] at hne
    · rintro (rfl | rfl | rfl) <;> simp [updateJobStatusRow, stampsCompleted]
  · intro job rest hjobs hget r hr hkey
    unfold classificationMarkSucceeded at hr
    rw [hjobs] at hr
    simp only [updateJob, hget, writeAtKey, List.mem_map] at hr
    obtain ⟨r0, _hr0, rfl⟩ := hr
    by_cases hmatch :
        (r0.documentId == job.documentId && r0.timestamp == job.timestamp) = true
    · simp only [hmatch, if_pos]
      simp [applyJobPatch, JobPatch.empty]
    · rw [if_neg (by simpa using hmatch)] at hkey ⊢
      exact absurd (by simp [hkey.1, hkey.2]) hmatch

/-- C2 witness. -/
theorem completedAt_iff_terminal_status_witness :
    ((DocumentProcessingStatus.SUCCEEDED = .SUCCEEDED ∨
        DocumentProcessingStatus.SUCCEEDED = .FAILED ∨
        DocumentProcessingStatus.SUCCEEDED = .PARTIAL_SUCCESS) →
      (updateJobStatusRow succeededJob 9 .SUCCEEDED none).completedAt = some 9) ∧
    ((DocumentProcessingStatus.SUCCEEDED = .SUBMITTED ∨
        DocumentProcessingStatus.SUCCEEDED = .IN_PROGRESS ∨
        DocumentProcessingStatus.SUCCEEDED = .EXTRACTED) →
      (updateJobStatusRow succeededJob 9 .SUCCEEDED none).completedAt =
        succeededJob.completedAt) ∧
    (succeededJob.completedAt = none →
      ((updateJobStatusRow succeededJob 9 .SUCCEEDED none).completedAt ≠ none ↔
        (DocumentProcessingStatus.SUCCEEDED = .SUCCEEDED ∨
          DocumentProcessingStatus.SUCCEEDED = .FAILED ∨
          DocumentProcessingStatus.SUCCEEDED = .PARTIAL_SUCCESS))) ∧
    (∀ job rest, getJobsByDocumentId [succeededJob] "doc-1" = job :: rest →
      getJob [succeededJob] job.jobId = some job →
      ∀ r ∈ classificationMarkSucceeded [succeededJob] 9 "doc-1",
        (r.documentId = job.documentId ∧ r.timestamp = job.timestamp) →
        r.status = .SUCCEEDED ∧ r.completedAt = some 9) := by
  have h := completedAt_iff_terminal_status [succeededJob] 9 "job-1" .SUCCEEDED
    none succeededJob (updateJobStatusRow succeededJob 9 .SUCCEEDED none)
    (by rfl) (by rfl) [succeededJob] 9 "doc-1"
  exact h

/-- The job row first created by `processDocument`. -/
def createdRow (cfg : ProcessorConfig) (env : ProcessEnv) (now : Nat)
    (m : DocumentMessage) : DocumentJob :=
  { jobId := env.jobId, documentId := env.documentId, bucket := m.bucket,
    key := m.key, status := .SUBMITTED, createdAt := now, updatedAt := now,
    timestamp := now, completedAt := none, errorMessage := none,
    textractFeatures := some ((getFeatures cfg m).map FeatureType.toStr),
    textractJobId := none }

lemma updateJobStatus_singleton (r : DocumentJob) (now : Nat)
    (s : DocumentProcessingStatus) (err : Option String) :
    updateJobStatus [r] now r.jobId s err =
      ([updateJobStatusRow r now s err], some (updateJobStatusRow r now s err)) := by
  simp [updateJobStatus, getJob, writeAtKey]

lemma updateJob_singleton (r : DocumentJob) (now : Nat) (p : JobPatch) :
    updateJob [r] now r.jobId p =
      ([applyJobPatch r now p], some (applyJobPatch r now p)) := by
  simp [updateJob, getJob, writeAtKey]

lemma createJob_nil (now : Nat) (j : NewJob) :
    createJob [] now j = .ok
      ([{ jobId := j.jobId, documentId := j.documentId, bucket := j.bucket,
          key := j.key, status := j.status, createdAt := now, updatedAt := now,
          timestamp := now, completedAt := none, errorMessage := none,
          textractFeatures := j.textractFeatures, textractJobId := none }],
       { jobId := j.jobId, documentId := j.documentId, bucket := j.bucket,
         key := j.key, status := j.status, createdAt := now, updatedAt := now,
         timestamp := now, completedAt := none, errorMessage := none,
         textractFeatures := j.textractFeatures, textractJobId := none }) := by
  simp [createJob]

lemma processDocument_sync_eval (cfg : ProcessorConfig) (env : ProcessEnv)
    (now : Nat) (m : DocumentMessage)
    (hv : validateMessage m = .ok ())
    (hfmt : isFormatSupported m.key = true)
    (hsize : exceedsMaxSize cfg (messageFileSize m) = false)
    (husync : useSyncRoute cfg (messageFileSize m) = true) :
    processDocument cfg env [] now m =
      match env.syncResult with
      | .ok _ =>
          ⟨[updateJobStatusRow
              (updateJobStatusRow (createdRow cfg env now m) now .IN_PROGRESS none)
              now .SUCCEEDED none],
           .ok env.jobId, [.IN_PROGRESS, .SUCCEEDED], [.analyzeSync], []⟩
      | .error e =>
          ⟨[updateJobStatusRow
              (updateJobStatusRow (createdRow cfg env now m) now .IN_PROGRESS none)
              now .FAILED (some e.message)],
           .error (wrapOuterCatch e), [.IN_PROGRESS, .FAILED], [.analyzeSync], []⟩ := by
  cases hres : env.syncResult with
  | ok v =>
      simp [processDocument, hv, hfmt, hsize, husync, hres, createJob,
        updateJobStatus, getJob, writeAtKey, createdRow, updateJobStatusRow]
  | error e =>
      simp [processDocument, hv, hfmt, hsize, husync, hres, createJob,
        updateJobStatus, getJob, writeAtKey, createdRow, updateJobStatusRow]

lemma processDocument_async_eval (cfg : ProcessorConfig) (env : ProcessEnv)
    (now : Nat) (m : DocumentMessage)
    (hv : validateMessage m = .ok ())
    (hfmt : isFormatSupported m.key = true)
    (hsize : exceedsMaxSize cfg (messageFileSize m) = false)
    (husync : useSyncRoute cfg (messageFileSize m) = false) :
    processDocument cfg env [] now m =
      match env.asyncStart with
      | .ok tid =>
          ⟨[applyJobPatch
              (updateJobStatusRow (createdRow cfg env now m) now .IN_PROGRESS none)
              now { JobPatch.empty with textractJobId := some tid }],
           .ok env.jobId, [.IN_PROGRESS], [.startAsync], []⟩
      | .error e =>
          ⟨[updateJobStatusRow
              (updateJobStatusRow (createdRow cfg env now m) now .IN_PROGRESS none)
              now .FAILED (some e.message)],
           .error (wrapOuterCatch e), [.IN_PROGRESS, .FAILED], [.startAsync], []⟩ := by
  cases hres : env.asyncStart with
  | ok tid =>
      simp [processDocument, hv, hfmt, hsize, husync, hres, createJob,
        updateJobStatus, updateJob, getJob, writeAtKey, createdRow,
        updateJobStatusRow, applyJobPatch]
  | error e =>
      simp [processDocument, hv, hfmt, hsize, husync, hres, createJob,
        updateJobStatus, getJob, writeAtKey, createdRow, updateJobStatusRow]

/-- An ingest message carrying a file size, for the routing theorems. -/
def ingestMessage (b key ts fs : String) : DocumentMessage :=
  { bucket := b, key := key, timestamp := ts,
    metadata := some { fileSize := some fs, contentType := none } }

/-- A processing environment with both gateway calls succeeding. -/
def ingestEnvA : ProcessEnv :=
  { documentId := "doc-1", jobId := "job-1", syncResult := .ok .null,
    asyncStart := .ok "tx-1" }

/-- C3, counterexample: the message carries file size `"0"`, which is below
the 5MB synchronous threshold, yet `processDocument` takes the
asynchronous path (`fileSize > 0` fails) and the job acquires
`textractJobId`, contradicting the claimed below-threshold behaviour. -/
theorem size_routing_counterexample :
    messageFileSize (ingestMessage "b" "doc.pdf" "t" "0") = some 0 ∧
    (0 : Int) < defaultProcessorConfig.syncSizeThresholdBytes ∧
    (processDocument defaultProcessorConfig ingestEnvA [] 7
      (ingestMessage "b" "doc.pdf" "t" "0")).calls = [.startAsync] ∧
    ((processDocument defaultProcessorConfig ingestEnvA [] 7
      (ingestMessage "b" "doc.pdf" "t" "0")).table.map
        (fun r => r.textractJobId)) = [some "tx-1"] := by
  exact ⟨rfl, by decide, rfl, rfl⟩

/-- C3, amended: writing `threshold` for the configured synchronous
threshold (default 5MB), a message whose parsed file size `n` satisfies
`0 < n < threshold` takes the synchronous path and its job never acquires
a `textractJobId`; a message with `n ≥ threshold` — or with a
non-positive parsed size, such as the literal `"0"` — takes the
asynchronous path and its job has `textractJobId` set before
`processDocument` returns. -/
theorem size_routing_amended
    (b key ts fs : String) (n : Int) (env : ProcessEnv) (now : Nat)
    (hb : b ≠ "") (hkn : key ≠ "") (ht : ts ≠ "")
    (hfmt : isFormatSupported key = true)
    (hfs : parseIntJs fs = some n) (hne : fs ≠ "")
    (hmax : n ≤ defaultProcessorConfig.maxDocumentSizeBytes) :
    (∀ v, env.syncResult = .ok v →
      0 < n → n < defaultProcessorConfig.syncSizeThresholdBytes →
      (processDocument defaultProcessorConfig env [] now
        (ingestMessage b key ts fs)).calls = [.analyzeSync] ∧
      (processDocument defaultProcessorConfig env [] now
        (ingestMessage b key ts fs)).result = .ok env.jobId ∧
      ∀ r ∈ (processDocument defaultProcessorConfig env [] now
        (ingestMessage b key ts fs)).table, r.textractJobId = none) ∧
    (∀ tid, env.asyncStart = .ok tid →
      (n ≤ 0 ∨ defaultProcessorConfig.syncSizeThresholdBytes ≤ n) →
      (processDocument defaultProcessorConfig env [] now
        (ingestMessage b key ts fs)).calls = [.startAsync] ∧
      (processDocument defaultProcessorConfig env [] now
        (ingestMessage b key ts fs)).result = .ok env.jobId ∧
      ∀ r ∈ (processDocument defaultProcessorConfig env [] now
        (ingestMessage b key ts fs)).table, r.textractJobId = some tid) := by
  have hv : validateMessage (ingestMessage b key ts fs) = .ok () := by
    simp [validateMessage, ingestMessage, hb, hkn, ht]
  have hfmt2 : isFormatSupported (ingestMessage b key ts fs).key = true := by
    simpa [ingestMessage] using hfmt
  have hms : messageFileSize (ingestMessage b key ts fs) = some n := by
    simp [messageFileSize, ingestMessage, hne, hfs]
  have hsize : exceedsMaxSize defaultProcessorConfig
      (messageFileSize (ingestMessage b key ts fs)) = false := by
    rw [hms]
    simp only [exceedsMaxSize, decide_eq_false_iff_not, not_lt]
    exact hmax
  constructor
  · intro v hok h0 hlt
    have husync : useSyncRoute defaultProcessorConfig
        (messageFileSize (ingestMessage b key ts fs)) = true := by
      rw [hms]
      simp only [useSyncRoute, Bool.and_eq_true, decide_eq_true_eq]
      exact ⟨h0, hlt⟩
    rw [processDocument_sync_eval defaultProcessorConfig env now
      (ingestMessage b key ts fs) hv hfmt2 hsize husync, hok]
    refine ⟨rfl, rfl, ?_⟩
    intro r hr
    simp only [List.mem_singleton] at hr
    subst hr
    simp [updateJobStatusRow, createdRow]
  · intro tid hok hge
    have husync : useSyncRoute defaultProcessorConfig
        (messageFileSize (ingestMessage b key ts fs)) = false := by
      rw [hms]
      simp only [useSyncRoute, Bool.and_eq_false_iff, decide_eq_false_iff_not,
        not_lt]
      rcases hge with h | h
      · exact Or.inl h
      · exact Or.inr h
    rw [processDocument_async_eval defaultProcessorConfig env now
      (ingestMessage b key ts fs) hv hfmt2 hsize husync, hok]
    refine ⟨rfl, rfl, ?_⟩
    intro r hr
    simp only [List.mem_singleton] at hr
    subst hr
    simp [applyJobPatch, JobPatch.empty, updateJobStatusRow, createdRow]

/-- C3 witness. -/
theorem size_routing_amended_witness :
    (∀ v, ingestEnvA.syncResult = .ok v →
      (0 : Int) < 100 → (100 : Int) < defaultProcessorConfig.syncSizeThresholdBytes →
      (processDocument defaultProcessorConfig ingestEnvA [] 7
        (ingestMessage "b" "doc.pdf" "t" "100")).calls = [.analyzeSync] ∧
      (processDocument defaultProcessorConfig ingestEnvA [] 7
        (ingestMessage "b" "doc.pdf" "t" "100")).result = .ok ingestEnvA.jobId ∧
      ∀ r ∈ (processDocument defaultProcessorConfig ingestEnvA [] 7
        (ingestMessage "b" "doc.pdf" "t" "100")).table, r.textractJobId = none) ∧
    (∀ tid, ingestEnvA.asyncStart = .ok tid →
      ((100 : Int) ≤ 0 ∨ defaultProcessorConfig.syncSizeThresholdBytes ≤ 100) →
      (processDocument defaultProcessorConfig ingestEnvA [] 7
        (ingestMessage "b" "doc.pdf" "t" "100")).calls = [.startAsync] ∧
      (processDocument defaultProcessorConfig ingestEnvA [] 7
        (ingestMessage "b" "doc.pdf" "t" "100")).result = .ok ingestEnvA.jobId ∧
      ∀ r ∈ (processDocument defaultProcessorConfig ingestEnvA [] 7
        (ingestMessage "b" "doc.pdf" "t" "100")).table,
        r.textractJobId = some tid) :=
  size_routing_amended "b" "doc.pdf" "t" "100" 100 ingestEnvA 7
    (by decide) (by decide) (by decide) (by decide) (by decide) (by decide)
    (by decide)

/-- C10: on the synchronous extraction path (parsed size strictly between
zero and the threshold), `processDocument` discards the value returned by
`analyzeDocumentSync` (the outcome is identical for any two successful
gateway results), writes nothing to object storage, performs exactly the
status writes IN_PROGRESS then SUCCEEDED — never EXTRACTED — and leaves
the job SUCCEEDED with no `textractJobId`. -/
theorem sync_path_discards_result_and_skips_extraction
    (b key ts fs : String) (n : Int) (env : ProcessEnv) (now : Nat) (v : Json)
    (hb : b ≠ "") (hkn : key ≠ "") (ht : ts ≠ "")
    (hfmt : isFormatSupported key = true)
    (hfs : parseIntJs fs = some n) (hne : fs ≠ "")
    (hmax : n ≤ defaultProcessorConfig.maxDocumentSizeBytes)
    (h0 : 0 < n) (hlt : n < defaultProcessorConfig.syncSizeThresholdBytes)
    (hok : env.syncResult = .ok v) :
    (∀ v1 v2,
      processDocument defaultProcessorConfig { env with syncResult := .ok v1 }
        [] now (ingestMessage b key ts fs) =
      processDocument defaultProcessorConfig { env with syncResult := .ok v2 }
        [] now (ingestMessage b key ts fs)) ∧
    (processDocument defaultProcessorConfig env [] now
      (ingestMessage b key ts fs)).s3Puts = [] ∧
    (processDocument defaultProcessorConfig env [] now
      (ingestMessage b key ts fs)).statusWrites =
      [.IN_PROGRESS, .SUCCEEDED] ∧
    DocumentProcessingStatus.EXTRACTED ∉
      (processDocument defaultProcessorConfig env [] now
        (ingestMessage b key ts fs)).statusWrites ∧
    ∀ r ∈ (processDocument defaultProcessorConfig env [] now
      (ingestMessage b key ts fs)).table,
      r.status = .SUCCEEDED ∧ r.textractJobId = none := by
  have hv : validateMessage (ingestMessage b key ts fs) = .ok () := by
    simp [validateMessage, ingestMessage, hb, hkn, ht]
  have hfmt2 : isFormatSupported (ingestMessage b key ts fs).key = true := by
    simpa [ingestMessage] using hfmt
  have hms : messageFileSize (ingestMessage b key ts fs) = some n := by
    simp [messageFileSize, ingestMessage, hne, hfs]
  have hsize : exceedsMaxSize defaultProcessorConfig
      (messageFileSize (ingestMessage b key ts fs)) = false := by
    rw [hms]
    simp only [exceedsMaxSize, decide_eq_false_iff_not, not_lt]
    exact hmax
  have husync : useSyncRoute defaultProcessorConfig
      (messageFileSize (ingestMessage b key ts fs)) = true := by
    rw [hms]
    simp only [useSyncRoute, Bool.and_eq_true, decide_eq_true_eq]
    exact ⟨h0, hlt⟩
  refine ⟨?_, ?_⟩
  · intro v1 v2
    rw [processDocument_sync_eval defaultProcessorConfig
      { env with syncResult := .ok v1 } now (ingestMessage b key ts fs)
      hv hfmt2 hsize husync]
    rw [processDocument_sync_eval defaultProcessorConfig
      { env with syncResult := .ok v2 } now (ingestMessage b key ts fs)
      hv hfmt2 hsize husync]
    rfl
  rw [processDocument_sync_eval defaultProcessorConfig env now
    (ingestMessage b key ts fs) hv hfmt2 hsize husync, hok]
  refine ⟨rfl, rfl, by simp, ?_⟩
  intro r hr
  simp only [List.mem_singleton] at hr
  subst hr
  simp [updateJobStatusRow, createdRow]

/-- C10 witness. -/
theorem sync_path_discards_result_witness :
    (∀ v1 v2,
      processDocument defaultProcessorConfig
        { ingestEnvA with syncResult := .ok v1 } [] 7
        (ingestMessage "b" "doc.pdf" "t" "100") =
      processDocument defaultProcessorConfig
        { ingestEnvA with syncResult := .ok v2 } [] 7
        (ingestMessage "b" "doc.pdf" "t" "100")) ∧
    (processDocument defaultProcessorConfig ingestEnvA [] 7
      (ingestMessage "b" "doc.pdf" "t" "100")).s3Puts = [] ∧
    (processDocument defaultProcessorConfig ingestEnvA [] 7
      (ingestMessage "b" "doc.pdf" "t" "100")).statusWrites =
      [.IN_PROGRESS, .SUCCEEDED] ∧
    DocumentProcessingStatus.EXTRACTED ∉
      (processDocument defaultProcessorConfig ingestEnvA [] 7
        (ingestMessage "b" "doc.pdf" "t" "100")).statusWrites ∧
    ∀ r ∈ (processDocument defaultProcessorConfig ingestEnvA [] 7
      (ingestMessage "b" "doc.pdf" "t" "100")).table,
      r.status = .SUCCEEDED ∧ r.textractJobId = none :=
  sync_path_discards_result_and_skips_extraction "b" "doc.pdf" "t" "100" 100
    ingestEnvA 7 .null (by decide) (by decide) (by decide) (by decide)
    (by decide) (by decide) (by decide) (by decide) (by decide) rfl

lemma fetchAllPages_eq_drop (pages : List Json) :
    ∀ fuel i, pages.length - i = fuel → i < pages.length →
      fetchAllPages pages fuel i = pages.drop i := by
  intro fuel
  induction fuel with
  | zero => intro i h hi; omega
  | succ f ih =>
      intro i h hi
      unfold fetchAllPages fetchResultPage
      by_cases hmore : i + 1 < pages.length
      · simp only [hmore, if_pos]
        rw [ih (i + 1) (by omega) hmore]
        rw [List.drop_eq_getElem_cons hi]
        congr 1
        simp [List.getD, List.getElem?_eq_getElem hi]
      · have hlast : i + 1 = pages.length := by omega
        simp only [hmore, if_neg, ite_false]
        rw [List.drop_eq_getElem_cons hi]
        have hnil : pages.drop (i + 1) = [] := by
          apply List.drop_eq_nil_of_le
          omega
        rw [hnil]
        congr 1
        simp [List.getD, List.getElem?_eq_getElem hi]

lemma getTextractResults_all (env : CompletionEnv) (b : Bool)
    (h : (if b then env.analysisPages else env.detectionPages) ≠ []) :
    getTextractResults env b =
      ((if b then env.analysisPages else env.detectionPages),
       if b then .analysis else .detection) := by
  have hlen : 0 < (if b then env.analysisPages else env.detectionPages).length :=
    List.length_pos.mpr h
  have hdrop := fetchAllPages_eq_drop
    (if b then env.analysisPages else env.detectionPages)
    (if b then env.analysisPages else env.detectionPages).length 0
    (by omega) hlen
  simp only [getTextractResults, hdrop, List.drop_zero]

lemma findJobs_writeAtKey (table : JobTable) (d : String) (ts : Nat)
    (f : DocumentJob → DocumentJob)
    (hf : ∀ r, (f r).textractJobId = r.textractJobId) (tid : String) :
    findJobsByTextractJobId (writeAtKey table d ts f) tid =
      (findJobsByTextractJobId table tid).map
        (fun r => if r.documentId == d && r.timestamp == ts then f r else r) := by
  induction table with
  | nil => rfl
  | cons r t ih =>
      simp only [writeAtKey, findJobsByTextractJobId, List.map_cons,
        List.filter_cons] at ih ⊢
      have hp : ((if (r.documentId == d && r.timestamp == ts) = true
            then f r else r).textractJobId == some tid) =
          (r.textractJobId == some tid) := by
        by_cases hmatch : (r.documentId == d && r.timestamp == ts) = true
        · rw [if_pos hmatch, hf r]
        · rw [if_neg hmatch]
      rw [hp]
      by_cases hpr : (r.textractJobId == some tid) = true
      · simp only [hpr, if_pos, List.map_cons]
        exact congrArg _ ih
      · simp only [hpr, if_neg, Bool.false_eq_true, not_false_iff, ite_false]
        exact ih

lemma s3Put_s3Put (s3 : S3State) (b k : String) (v : Json) :
    s3Put (s3Put s3 b k v) b k v = s3Put s3 b k v := by
  unfold s3Put
  congr 1
  rw [List.filter_cons]
  simp [List.filter_filter]

lemma processTextractCompletion_eval (env : CompletionEnv) (table : JobTable)
    (s3 : S3State) (now : Nat) (msg : CompletionMessage) (tid : String)
    (j : DocumentJob) (rest : List DocumentJob)
    (hjid : msg.jobId = some tid)
    (hfind : findJobsByTextractJobId table tid = j :: rest)
    (hput : env.s3PutOk = true) :
    processTextractCompletion env table s3 now msg =
      ⟨(updateJobStatus table now j.jobId .EXTRACTED none).1,
       s3Put s3 j.bucket ("extracted/" ++ j.documentId ++ ".json")
         (.arr (getTextractResults env (jobHasFeatures j)).1),
       .ok (), some (getTextractResults env (jobHasFeatures j)).2, some j,
       some (j.bucket, "extracted/" ++ j.documentId ++ ".json")⟩ := by
  simp only [processTextractCompletion, hjid, hfind, hput, if_pos]

/-- A job row with a pending asynchronous extraction, for concrete
instantiations of the completion theorems. -/
def pendingJob : DocumentJob :=
  { jobId := "job-2", documentId := "doc-2", bucket := "b", key := "k.pdf",
    status := .IN_PROGRESS, createdAt := 1, updatedAt := 1, timestamp := 1,
    completedAt := none, errorMessage := none,
    textractFeatures := some ["TABLES", "FORMS"], textractJobId := some "tx-2" }

/-- A completion environment with three analysis pages and one detection
page. -/
def completionEnvA : CompletionEnv :=
  { analysisPages := [.str "p1", .str "p2", .str "p3"],
    detectionPages := [.str "q1"], s3PutOk := true }

/-- C8: the completion handler uses the analysis result API exactly when
the resolved job's `textractFeatures` is a non-empty list and the
text-detection API otherwise, and it follows `NextToken` until exhausted,
storing the concatenation of all pages of the chosen API as one artifact
at the deterministic key. -/
theorem completion_api_selection_and_pagination
    (env : CompletionEnv) (table : JobTable) (s3 : S3State) (now : Nat)
    (msg : CompletionMessage) (tid : String) (j : DocumentJob)
    (rest : List DocumentJob)
    (hjid : msg.jobId = some tid)
    (hfind : findJobsByTextractJobId table tid = j :: rest)
    (hpages : (if jobHasFeatures j then env.analysisPages
                else env.detectionPages) ≠ [])
    (hput : env.s3PutOk = true) :
    (processTextractCompletion env table s3 now msg).apiUsed =
      some (if jobHasFeatures j then .analysis else .detection) ∧
    (jobHasFeatures j = true ↔ ∃ l, j.textractFeatures = some l ∧ l ≠ []) ∧
    (processTextractCompletion env table s3 now msg).storedKey =
      some (j.bucket, "extracted/" ++ j.documentId ++ ".json") ∧
    (processTextractCompletion env table s3 now msg).s3 =
      s3Put s3 j.bucket ("extracted/" ++ j.documentId ++ ".json")
        (.arr (if jobHasFeatures j then env.analysisPages
               else env.detectionPages)) := by
  rw [processTextractCompletion_eval env table s3 now msg tid j rest
    hjid hfind hput]
  rw [getTextractResults_all env (jobHasFeatures j) hpages]
  refine ⟨rfl, ?_, rfl, rfl⟩
  constructor
  · intro hb
    unfold jobHasFeatures at hb
    cases hfeat : j.textractFeatures with
    | none => rw [hfeat] at hb; simp at hb
    | some l =>
        rw [hfeat] at hb
        simp only [decide_eq_true_eq] at hb
        exact ⟨l, rfl, hb⟩
  · rintro ⟨l, hl, hne⟩
    unfold jobHasFeatures
    rw [hl]
    simp [hne]

/-- C8 witness. -/
theorem completion_api_selection_witness :
    (processTextractCompletion completionEnvA [pendingJob] [] 9
      { jobId := some "tx-2", status := "SUCCEEDED" }).apiUsed =
      some (if jobHasFeatures pendingJob then .analysis else .detection) ∧
    (jobHasFeatures pendingJob = true ↔
      ∃ l, pendingJob.textractFeatures = some l ∧ l ≠ []) ∧
    (processTextractCompletion completionEnvA [pendingJob] [] 9
      { jobId := some "tx-2", status := "SUCCEEDED" }).storedKey =
      some (pendingJob.bucket,
        "extracted/" ++ pendingJob.documentId ++ ".json") ∧
    (processTextractCompletion completionEnvA [pendingJob] [] 9
      { jobId := some "tx-2", status := "SUCCEEDED" }).s3 =
      s3Put [] pendingJob.bucket
        ("extracted/" ++ pendingJob.documentId ++ ".json")
        (.arr (if jobHasFeatures pendingJob then completionEnvA.analysisPages
               else completionEnvA.detectionPages)) :=
  completion_api_selection_and_pagination completionEnvA [pendingJob] [] 9
    { jobId := some "tx-2", status := "SUCCEEDED" } "tx-2" pendingJob []
    rfl rfl (by simp [jobHasFeatures, pendingJob, completionEnvA]) rfl

lemma getJob_writeAtKey (table : JobTable) (d : String) (ts : Nat)
    (f : DocumentJob → DocumentJob)
    (hf : ∀ r, (f r).jobId = r.jobId) (jid : String) :
    getJob (writeAtKey table d ts f) jid =
      (getJob table jid).map
        (fun r => if (r.documentId == d && r.timestamp == ts) = true
                  then f r else r) := by
  induction table with
  | nil => rfl
  | cons r t ih =>
      simp only [writeAtKey, getJob, List.map_cons, List.find?_cons] at ih ⊢
      have hp : ((if (r.documentId == d && r.timestamp == ts) = true
            then f r else r).jobId == jid) = (r.jobId == jid) := by
        by_cases hmatch : (r.documentId == d && r.timestamp == ts) = true
        · rw [if_pos hmatch, hf r]
        · rw [if_neg hmatch]
      rw [hp]
      by_cases hpr : (r.jobId == jid) = true
      · simp only [hpr, cond_true]
        rfl
      · simp only [hpr, cond_false]
        exact ih

/-- The self-key of a job row always matches. -/
lemma selfKeyMatch (j : DocumentJob) :
    (j.documentId == j.documentId && j.timestamp == j.timestamp) = true := by
  simp

/-- Redelivering a completion notification: the outcome of processing the
same notification a second time, on the state the first processing
produced. -/
def completionTwice (env : CompletionEnv) (table : JobTable) (s3 : S3State)
    (now1 now2 : Nat) (msg : CompletionMessage) : CompletionOutcome :=
  processTextractCompletion env
    (processTextractCompletion env table s3 now1 msg).table
    (processTextractCompletion env table s3 now1 msg).s3 now2 msg

/-- C5: processing the same extraction-completion notification twice is
idempotent — the second execution also succeeds, resolves the same job
row (same `jobId`), stores to the same deterministic key
`extracted/(documentId).json` leaving the object store exactly as after
the first run, creates no additional job rows, and leaves every row at
the resolved job's key with final status EXTRACTED after either run. -/
theorem completion_notification_idempotent
    (env : CompletionEnv) (table : JobTable) (s3 : S3State)
    (now1 now2 : Nat) (msg : CompletionMessage) (tid : String)
    (j : DocumentJob) (rest : List DocumentJob)
    (hjid : msg.jobId = some tid)
    (hfind : findJobsByTextractJobId table tid = j :: rest)
    (hget : getJob table j.jobId = some j)
    (hput : env.s3PutOk = true) :
    (processTextractCompletion env table s3 now1 msg).result = .ok () ∧
    (completionTwice env table s3 now1 now2 msg).result = .ok () ∧
    (completionTwice env table s3 now1 now2 msg).s3 =
      (processTextractCompletion env table s3 now1 msg).s3 ∧
    (completionTwice env table s3 now1 now2 msg).storedKey =
      (processTextractCompletion env table s3 now1 msg).storedKey ∧
    (processTextractCompletion env table s3 now1 msg).storedKey =
      some (j.bucket, "extracted/" ++ j.documentId ++ ".json") ∧
    ((completionTwice env table s3 now1 now2 msg).resolved).map
      (fun r => r.jobId) = some j.jobId ∧
    ((processTextractCompletion env table s3 now1 msg).resolved).map
      (fun r => r.jobId) = some j.jobId ∧
    (completionTwice env table s3 now1 now2 msg).table.length = table.length ∧
    (processTextractCompletion env table s3 now1 msg).table.length =
      table.length ∧
    (∀ r ∈ (processTextractCompletion env table s3 now1 msg).table,
      r.documentId = j.documentId → r.timestamp = j.timestamp →
      r.status = .EXTRACTED) ∧
    (∀ r ∈ (completionTwice env table s3 now1 now2 msg).table,
      r.documentId = j.documentId → r.timestamp = j.timestamp →
      r.status = .EXTRACTED) := by
  have hupd : ∀ (r : DocumentJob) (now : Nat),
      (updateJobStatusRow r now .EXTRACTED none).textractJobId =
        r.textractJobId := fun _ _ => rfl
  have hupdid : ∀ (r : DocumentJob) (now : Nat),
      (updateJobStatusRow r now .EXTRACTED none).jobId = r.jobId :=
    fun _ _ => rfl
  -- first run
  have e1 := processTextractCompletion_eval env table s3 now1 msg tid j rest
    hjid hfind hput
  have htab1 : (updateJobStatus table now1 j.jobId .EXTRACTED none).1 =
      writeAtKey table j.documentId j.timestamp
        (fun r => updateJobStatusRow r now1 .EXTRACTED none) := by
    simp [updateJobStatus, hget]
  -- resolution in the second run
  have hfind1 : findJobsByTextractJobId
      (writeAtKey table j.documentId j.timestamp
        (fun r => updateJobStatusRow r now1 .EXTRACTED none)) tid =
      updateJobStatusRow j now1 .EXTRACTED none ::
        rest.map (fun r =>
          if (r.documentId == j.documentId && r.timestamp == j.timestamp) = true
          then updateJobStatusRow r now1 .EXTRACTED none else r) := by
    rw [findJobs_writeAtKey table j.documentId j.timestamp _
      (fun r => hupd r now1) tid, hfind]
    simp only [List.map_cons, selfKeyMatch, if_pos]
  have hget1 : getJob
      (writeAtKey table j.documentId j.timestamp
        (fun r => updateJobStatusRow r now1 .EXTRACTED none))
      (updateJobStatusRow j now1 .EXTRACTED none).jobId =
      some (updateJobStatusRow j now1 .EXTRACTED none) := by
    rw [hupdid j now1]
    rw [getJob_writeAtKey table j.documentId j.timestamp _
      (fun r => hupdid r now1) j.jobId, hget]
    simp [selfKeyMatch]
  -- second run
  have e2 := processTextractCompletion_eval env
    (writeAtKey table j.documentId j.timestamp
      (fun r => updateJobStatusRow r now1 .EXTRACTED none))
    (s3Put s3 j.bucket ("extracted/" ++ j.documentId ++ ".json")
      (.arr (getTextractResults env (jobHasFeatures j)).1))
    now2 msg tid (updateJobStatusRow j now1 .EXTRACTED none) _
    hjid hfind1 hput
  have htab2 : (updateJobStatus
      (writeAtKey table j.documentId j.timestamp
        (fun r => updateJobStatusRow r now1 .EXTRACTED none))
      now2 (updateJobStatusRow j now1 .EXTRACTED none).jobId
      .EXTRACTED none).1 =
      writeAtKey
        (writeAtKey table j.documentId j.timestamp
          (fun r => updateJobStatusRow r now1 .EXTRACTED none))
        j.documentId j.timestamp
        (fun r => updateJobStatusRow r now2 .EXTRACTED none) := by
    simp only [updateJobStatus, hget1]
    rfl
  have hco : completionTwice env table s3 now1 now2 msg =
      processTextractCompletion env
        (writeAtKey table j.documentId j.timestamp
          (fun r => updateJobStatusRow r now1 .EXTRACTED none))
        (s3Put s3 j.bucket ("extracted/" ++ j.documentId ++ ".json")
          (.arr (getTextractResults env (jobHasFeatures j)).1))
        now2 msg := by
    unfold completionTwice
    rw [e1, htab1]
  rw [hco, e2, htab2, e1, htab1]
  refine ⟨rfl, rfl, ?_, rfl, rfl, rfl, rfl, ?_, ?_, ?_, ?_⟩
  · -- the second S3 write overwrites the first with the same content
    exact s3Put_s3Put s3 j.bucket ("extracted/" ++ j.documentId ++ ".json")
      (.arr (getTextractResults env (jobHasFeatures j)).1)
  · simp [writeAtKey]
  · simp [writeAtKey]
  · intro r hr hd hts
    simp only [writeAtKey, List.mem_map] at hr
    obtain ⟨r0, _hr0, rfl⟩ := hr
    by_cases hmatch :
        (r0.documentId == j.documentId && r0.timestamp == j.timestamp) = true
    · rw [if_pos hmatch]
      rfl
    · rw [if_neg hmatch] at hd hts ⊢
      exact absurd (by simp [hd, hts]) hmatch
  · intro r hr hd hts
    simp only [writeAtKey, List.mem_map] at hr
    obtain ⟨r0, hr0, rfl⟩ := hr
    by_cases hmatch :
        (r0.documentId == j.documentId && r0.timestamp == j.timestamp) = true
    · rw [if_pos hmatch]
      rfl
    · rw [if_neg hmatch] at hd hts ⊢
      exact absurd (by simp [hd, hts]) hmatch

/-- C5 witness. -/
theorem completion_notification_idempotent_witness :
    (processTextractCompletion completionEnvA [pendingJob] [] 9
      { jobId := some "tx-2", status := "SUCCEEDED" }).result = .ok () ∧
    (completionTwice completionEnvA [pendingJob] [] 9 11
      { jobId := some "tx-2", status := "SUCCEEDED" }).result = .ok () ∧
    (completionTwice completionEnvA [pendingJob] [] 9 11
      { jobId := some "tx-2", status := "SUCCEEDED" }).s3 =
      (processTextractCompletion completionEnvA [pendingJob] [] 9
        { jobId := some "tx-2", status := "SUCCEEDED" }).s3 ∧
    (completionTwice completionEnvA [pendingJob] [] 9 11
      { jobId := some "tx-2", status := "SUCCEEDED" }).storedKey =
      (processTextractCompletion completionEnvA [pendingJob] [] 9
        { jobId := some "tx-2", status := "SUCCEEDED" }).storedKey ∧
    (processTextractCompletion completionEnvA [pendingJob] [] 9
      { jobId := some "tx-2", status := "SUCCEEDED" }).storedKey =
      some (pendingJob.bucket,
        "extracted/" ++ pendingJob.documentId ++ ".json") ∧
    ((completionTwice completionEnvA [pendingJob] [] 9 11
      { jobId := some "tx-2", status := "SUCCEEDED" }).resolved).map
      (fun r => r.jobId) = some pendingJob.jobId ∧
    ((processTextractCompletion completionEnvA [pendingJob] [] 9
      { jobId := some "tx-2", status := "SUCCEEDED" }).resolved).map
      (fun r => r.jobId) = some pendingJob.jobId ∧
    (completionTwice completionEnvA [pendingJob] [] 9 11
      { jobId := some "tx-2", status := "SUCCEEDED" }).table.length =
      ([pendingJob] : JobTable).length ∧
    (processTextractCompletion completionEnvA [pendingJob] [] 9
      { jobId := some "tx-2", status := "SUCCEEDED" }).table.length =
      ([pendingJob] : JobTable).length ∧
    (∀ r ∈ (processTextractCompletion completionEnvA [pendingJob] [] 9
      { jobId := some "tx-2", status := "SUCCEEDED" }).table,
      r.documentId = pendingJob.documentId →
      r.timestamp = pendingJob.timestamp → r.status = .EXTRACTED) ∧
    (∀ r ∈ (completionTwice completionEnvA [pendingJob] [] 9 11
      { jobId := some "tx-2", status := "SUCCEEDED" }).table,
      r.documentId = pendingJob.documentId →
      r.timestamp = pendingJob.timestamp → r.status = .EXTRACTED) :=
  completion_notification_idempotent completionEnvA [pendingJob] [] 9 11
    { jobId := some "tx-2", status := "SUCCEEDED" } "tx-2" pendingJob []
    rfl rfl rfl rfl

/-- A completion environment whose S3 put fails. -/
def completionEnvFail : CompletionEnv :=
  { analysisPages := [.str "p1"], detectionPages := [.str "q1"],
    s3PutOk := false }

/-- C9, counterexample: when the S3 store of the extraction result throws
inside the textract-completion handler — after the job row has been
resolved — the handler re-throws the storage error but persists nothing:
the job row stays IN_PROGRESS with no `errorMessage`, so no FAILED status
is recorded, contrary to the claim that every stage handler persists
FAILED before re-throwing. -/
theorem completion_no_failed_persist_counterexample :
    (processTextractCompletion completionEnvFail [pendingJob] [] 9
      { jobId := some "tx-2", status := "SUCCEEDED" }).result =
      .error (.storageError "Failed to store Textract results") ∧
    (processTextractCompletion completionEnvFail [pendingJob] [] 9
      { jobId := some "tx-2", status := "SUCCEEDED" }).table = [pendingJob] ∧
    pendingJob.status = .IN_PROGRESS ∧
    pendingJob.errorMessage = none :=
  ⟨rfl, rfl, rfl, rfl⟩

/-- C9, amended: `processDocument` — the ingest-processing stage — does
persist FAILED with the gateway error message onto the job row and then
re-throws the same error, on both the synchronous and the asynchronous
branch; the textract-completion handler, however, re-throws a storage
error with no status written at all (its job rows are returned
unchanged). -/
theorem failure_propagation_amended
    (b key ts fs : String) (n : Int) (env : ProcessEnv) (now : Nat)
    (em : String)
    (hb : b ≠ "") (hkn : key ≠ "") (ht : ts ≠ "")
    (hfmt : isFormatSupported key = true)
    (hfs : parseIntJs fs = some n) (hne : fs ≠ "")
    (hmax : n ≤ defaultProcessorConfig.maxDocumentSizeBytes)
    (hem : em ≠ "") :
    (env.syncResult = .error (.textractError em) →
      0 < n → n < defaultProcessorConfig.syncSizeThresholdBytes →
      (processDocument defaultProcessorConfig env [] now
        (ingestMessage b key ts fs)).result = .error (.textractError em) ∧
      ∀ r ∈ (processDocument defaultProcessorConfig env [] now
        (ingestMessage b key ts fs)).table,
        r.status = .FAILED ∧ r.errorMessage = some em) ∧
    (env.asyncStart = .error (.textractError em) →
      (n ≤ 0 ∨ defaultProcessorConfig.syncSizeThresholdBytes ≤ n) →
      (processDocument defaultProcessorConfig env [] now
        (ingestMessage b key ts fs)).result = .error (.textractError em) ∧
      ∀ r ∈ (processDocument defaultProcessorConfig env [] now
        (ingestMessage b key ts fs)).table,
        r.status = .FAILED ∧ r.errorMessage = some em) ∧
    (∀ (cenv : CompletionEnv) (ctable : JobTable) (cs3 : S3State)
       (cnow : Nat) (cmsg : CompletionMessage) (ctid : String)
       (cj : DocumentJob) (crest : List DocumentJob),
      cmsg.jobId = some ctid →
      findJobsByTextractJobId ctable ctid = cj :: crest →
      cenv.s3PutOk = false →
      (processTextractCompletion cenv ctable cs3 cnow cmsg).result =
        .error (.storageError "Failed to store Textract results") ∧
      (processTextractCompletion cenv ctable cs3 cnow cmsg).table = ctable) := by
  have hv : validateMessage (ingestMessage b key ts fs) = .ok () := by
    simp [validateMessage, ingestMessage, hb, hkn, ht]
  have hfmt2 : isFormatSupported (ingestMessage b key ts fs).key = true := by
    simpa [ingestMessage] using hfmt
  have hms : messageFileSize (ingestMessage b key ts fs) = some n := by
    simp [messageFileSize, ingestMessage, hne, hfs]
  have hsize : exceedsMaxSize defaultProcessorConfig
      (messageFileSize (ingestMessage b key ts fs)) = false := by
    rw [hms]
    simp only [exceedsMaxSize, decide_eq_false_iff_not, not_lt]
    exact hmax
  refine ⟨?_, ?_, ?_⟩
  · intro hres h0 hlt
    have husync : useSyncRoute defaultProcessorConfig
        (messageFileSize (ingestMessage b key ts fs)) = true := by
      rw [hms]
      simp only [useSyncRoute, Bool.and_eq_true, decide_eq_true_eq]
      exact ⟨h0, hlt⟩
    rw [processDocument_sync_eval defaultProcessorConfig env now
      (ingestMessage b key ts fs) hv hfmt2 hsize husync, hres]
    refine ⟨rfl, ?_⟩
    intro r hr
    simp only [List.mem_singleton] at hr
    subst hr
    simp [updateJobStatusRow, AppError.message, hem]
  · intro hres hge
    have husync : useSyncRoute defaultProcessorConfig
        (messageFileSize (ingestMessage b key ts fs)) = false := by
      rw [hms]
      simp only [useSyncRoute, Bool.and_eq_false_iff, decide_eq_false_iff_not,
        not_lt]
      rcases hge with h | h
      · exact Or.inl h
      · exact Or.inr h
    rw [processDocument_async_eval defaultProcessorConfig env now
      (ingestMessage b key ts fs) hv hfmt2 hsize husync, hres]
    refine ⟨rfl, ?_⟩
    intro r hr
    simp only [List.mem_singleton] at hr
    subst hr
    simp [updateJobStatusRow, AppError.message, hem]
  · intro cenv ctable cs3 cnow cmsg ctid cj crest hjid hfind hput
    simp [processTextractCompletion, hjid, hfind, hput]

/-- C9 witness. -/
theorem failure_propagation_amended_witness :
    (({ documentId := "doc-1", jobId := "job-1",
        syncResult := .error (.textractError "boom"),
        asyncStart := .error (.textractError "boom") } : ProcessEnv).syncResult
        = .error (.textractError "boom") →
      (0 : Int) < 100 →
      (100 : Int) < defaultProcessorConfig.syncSizeThresholdBytes →
      (processDocument defaultProcessorConfig
        { documentId := "doc-1", jobId := "job-1",
          syncResult := .error (.textractError "boom"),
          asyncStart := .error (.textractError "boom") } [] 7
        (ingestMessage "b" "doc.pdf" "t" "100")).result =
        .error (.textractError "boom") ∧
      ∀ r ∈ (processDocument defaultProcessorConfig
        { documentId := "doc-1", jobId := "job-1",
          syncResult := .error (.textractError "boom"),
          asyncStart := .error (.textractError "boom") } [] 7
        (ingestMessage "b" "doc.pdf" "t" "100")).table,
        r.status = .FAILED ∧ r.errorMessage = some "boom") ∧
    (({ documentId := "doc-1", jobId := "job-1",
        syncResult := .error (.textractError "boom"),
        asyncStart := .error (.textractError "boom") } : ProcessEnv).asyncStart
        = .error (.textractError "boom") →
      ((100 : Int) ≤ 0 ∨ defaultProcessorConfig.syncSizeThresholdBytes ≤ 100) →
      (processDocument defaultProcessorConfig
        { documentId := "doc-1", jobId := "job-1",
          syncResult := .error (.textractError "boom"),
          asyncStart := .error (.textractError "boom") } [] 7
        (ingestMessage "b" "doc.pdf" "t" "100")).result =
        .error (.textractError "boom") ∧
      ∀ r ∈ (processDocument defaultProcessorConfig
        { documentId := "doc-1", jobId := "job-1",
          syncResult := .error (.textractError "boom"),
          asyncStart := .error (.textractError "boom") } [] 7
        (ingestMessage "b" "doc.pdf" "t" "100")).table,
        r.status = .FAILED ∧ r.errorMessage = some "boom") ∧
    (∀ (cenv : CompletionEnv) (ctable : JobTable) (cs3 : S3State)
       (cnow : Nat) (cmsg : CompletionMessage) (ctid : String)
       (cj : DocumentJob) (crest : List DocumentJob),
      cmsg.jobId = some ctid →
      findJobsByTextractJobId ctable ctid = cj :: crest →
      cenv.s3PutOk = false →
      (processTextractCompletion cenv ctable cs3 cnow cmsg).result =
        .error (.storageError "Failed to store Textract results") ∧
      (processTextractCompletion cenv ctable cs3 cnow cmsg).table = ctable) :=
  failure_propagation_amended "b" "doc.pdf" "t" "100" 100
    { documentId := "doc-1", jobId := "job-1",
      syncResult := .error (.textractError "boom"),
      asyncStart := .error (.textractError "boom") } 7 "boom"
    (by decide) (by decide) (by decide) (by decide) (by decide) (by decide)
    (by decide) (by decide)

/-- Whether a per-record processing outcome is a thrown error. -/
def exceptFails : Except AppError String → Bool
  | .ok _ => false
  | .error _ => true

lemma sqsBatchCollect_spec (proc : SqsRec → Except AppError String) :
    ∀ (records : List SqsRec) (acc : List String × List String),
      sqsBatchCollect proc records acc =
        (acc.1 ++ (records.filter (fun r => !exceptFails (proc r))).map
          (fun r => r.messageId),
         acc.2 ++ (records.filter (fun r => exceptFails (proc r))).map
          (fun r => r.messageId)) := by
  intro records
  induction records with
  | nil => intro acc; simp [sqsBatchCollect]
  | cons r rs ih =>
      intro acc
      cases hp : proc r with
      | ok v =>
          have hstep : sqsBatchCollect proc (r :: rs) acc =
              sqsBatchCollect proc rs (acc.1 ++ [r.messageId], acc.2) := by
            simp only [sqsBatchCollect, hp]
          rw [hstep, ih, List.filter_cons, List.filter_cons]
          rw [show exceptFails (proc r) = false by simp [hp, exceptFails]]
          simp [List.append_assoc]
      | error e =>
          have hstep : sqsBatchCollect proc (r :: rs) acc =
              sqsBatchCollect proc rs (acc.1, acc.2 ++ [r.messageId]) := by
            simp only [sqsBatchCollect, hp]
          rw [hstep, ih, List.filter_cons, List.filter_cons]
          rw [show exceptFails (proc r) = true by simp [hp, exceptFails]]
          simp [List.append_assoc]

lemma classificationHandler_silent (env : ClassifyEnv) (now : Nat) :
    ∀ (records : List ClassifyRecord) (st : PipelineState),
      (classificationHandler env st now records).2 = [] := by
  intro records
  induction records with
  | nil => intro st; rfl
  | cons r rs ih =>
      intro st
      unfold classificationHandler
      exact ih _

/-- A classify message whose storage object is missing. -/
def failingClassifyRecord : ClassifyRecord :=
  { messageId := "mid-1",
    msg := { documentId := some "doc-9", bucket := some "b",
             key := some "missing.json" } }

/-- A classification environment where every collaborator succeeds. -/
def classifyEnvA : ClassifyEnv :=
  { kbId := none, llmResponse := "ignored", kbStoreOk := true, s3PutOk := true }

/-- A pipeline state holding one pending job and an empty object store. -/
def stateA : PipelineState := { table := [pendingJob], s3 := [], kb := [] }

/-- C4, counterexample: a classification batch with one failing message
(its `key` is absent from storage).  The record's processing does throw,
and its job table is left unwritten, but the classification handler
catches the error and returns `void`: its reported batch-item failures
are empty rather than containing the failed message id, so the message is
not redelivered. -/
theorem classification_batch_failure_counterexample :
    (processClassificationRecord classifyEnvA stateA 9 failingClassifyRecord).2 =
      .error (.jsError "Document not found: b/missing.json") ∧
    (classificationHandler classifyEnvA stateA 9 [failingClassifyRecord]).2 = [] ∧
    ([] : List String) ≠ [failingClassifyRecord.messageId] ∧
    (classificationHandler classifyEnvA stateA 9
      [failingClassifyRecord]).1.table = stateA.table :=
  ⟨rfl, rfl, by decide, rfl⟩

/-- C4, amended: the document-processor SQS batch handler reports as
`batchItemFailures` exactly the message ids of the records whose
processing threw — as a multiset: the ids are pushed in
promise-completion order, so for every completion order (any permutation
of the batch) the reported list is a permutation of the failing records'
ids, each record's outcome depending only on that record; the
classification handler, however, swallows each record's error and reports
no batch-item failures at all — a failing classify message is not
reported (and hence not redelivered), although its job's status is indeed
left unwritten, the state being returned unchanged. -/
theorem batch_partial_failure_amended
    (env : ClassifyEnv) (st : PipelineState) (now : Nat) (r : ClassifyRecord)
    (d bq k : String)
    (hd : r.msg.documentId = some d) (hb : r.msg.bucket = some bq)
    (hk : r.msg.key = some k) (hdn : d ≠ "") (hbn : bq ≠ "") (hkn : k ≠ "")
    (hmiss : s3Get st.s3 bq k = none) :
    (∀ (proc : SqsRec → Except AppError String) (records order : List SqsRec),
      order.Perm records →
      (sqsBatchHandler proc order).Perm
        ((records.filter (fun rec => exceptFails (proc rec))).map
          (fun rec => rec.messageId))) ∧
    (∀ (env2 : ClassifyEnv) (st2 : PipelineState) (now2 : Nat)
       (records : List ClassifyRecord),
      (classificationHandler env2 st2 now2 records).2 = []) ∧
    processClassificationRecord env st now r =
      (st, .error (.jsError ("Document not found: " ++ bq ++ "/" ++ k))) := by
  refine ⟨?_, ?_, ?_⟩
  · intro proc records order hperm
    unfold sqsBatchHandler
    rw [sqsBatchCollect_spec proc order ([], [])]
    simp only [List.nil_append]
    exact (hperm.filter _).map _
  · intro env2 st2 now2 records
    exact classificationHandler_silent env2 now2 records st2
  · have htr : (jsTruthy r.msg.documentId && jsTruthy r.msg.bucket &&
        jsTruthy r.msg.key) = true := by
      rw [hd, hb, hk]
      simp [jsTruthy, hdn, hbn, hkn]
    unfold processClassificationRecord
    rw [if_neg (by simp [htr])]
    rw [hd, hb, hk]
    simp only [Option.getD_some]
    rw [hmiss]

/-- C4 witness. -/
theorem batch_partial_failure_amended_witness :
    (∀ (proc : SqsRec → Except AppError String) (records order : List SqsRec),
      order.Perm records →
      (sqsBatchHandler proc order).Perm
        ((records.filter (fun rec => exceptFails (proc rec))).map
          (fun rec => rec.messageId))) ∧
    (∀ (env2 : ClassifyEnv) (st2 : PipelineState) (now2 : Nat)
       (records : List ClassifyRecord),
      (classificationHandler env2 st2 now2 records).2 = []) ∧
    processClassificationRecord classifyEnvA stateA 9 failingClassifyRecord =
      (stateA, .error (.jsError ("Document not found: " ++ "b" ++ "/" ++
        "missing.json"))) :=
  batch_partial_failure_amended classifyEnvA stateA 9 failingClassifyRecord
    "doc-9" "b" "missing.json" rfl rfl rfl (by decide) (by decide) (by decide)
    rfl

lemma dropWhile_head_false {α : Type} (p : α → Bool) (l : List α) :
    ∀ c cs, l.dropWhile p = c :: cs → p c = false := by
  induction l with
  | nil => intro c cs h; simp [List.dropWhile] at h
  | cons x xs ih =>
      intro c cs h
      rw [List.dropWhile_cons] at h
      by_cases hx : p x = true
      · rw [if_pos hx] at h
        exact ih c cs h
      · rw [if_neg hx] at h
        cases h
        simpa using hx

lemma not_mem_takeWhile_of_pred {α : Type} (p : α → Bool) (l : List α) (a : α)
    (ha : p a = false) : a ∉ l.takeWhile p := by
  intro hmem
  have := List.mem_takeWhile_imp hmem
  rw [ha] at this
  cases this

/-- C6, counterexample: a response containing two JSON objects.  The
claimed behaviour — return the parse of the first balanced object — would
succeed (`firstBalancedJsonSpan` finds a parseable object), but
`parseJsonFromLlmResponse` matches greedily from the first opening brace
to the last closing brace and so feeds an unparseable string to
`JSON.parse`, throwing instead. -/
theorem llm_json_extraction_counterexample :
    regexBraceSpan "\x7b\"a\": 1\x7d and \x7b\"b\": 2\x7d" =
      some "\x7b\"a\": 1\x7d and \x7b\"b\": 2\x7d" ∧
    parseJsonFromLlmResponse "\x7b\"a\": 1\x7d and \x7b\"b\": 2\x7d" =
      .error (.jsError
        "Failed to parse JSON from LLM response: Unexpected token") ∧
    firstBalancedJsonSpan "\x7b\"a\": 1\x7d and \x7b\"b\": 2\x7d" = some "\x7b\"a\": 1\x7d" ∧
    (jsonParse "\x7b\"a\": 1\x7d").isSome = true :=
  ⟨rfl, rfl, rfl, rfl⟩

/-- C6, amended: `parseJsonFromLlmResponse` extracts the greedy regex
match of the response — the substring running from the first opening
brace through the last closing brace, not the first balanced JSON
object — and returns its `JSON.parse`; a response with no such
brace-delimited span (in particular one containing no JSON object at all)
fails with an error. -/
theorem llm_json_extraction_amended (s t : String) (v : Json)
    (hspan : regexBraceSpan s = some t) (hparse : jsonParse t = some v) :
    parseJsonFromLlmResponse s = .ok v ∧
    (∃ pre post, s.data = pre ++ t.data ++ post ∧
      '{' ∉ pre ∧ '}' ∉ post ∧
      t.data.head? = some '{' ∧ t.data.getLast? = some '}') ∧
    (∀ s2, regexBraceSpan s2 = none →
      parseJsonFromLlmResponse s2 = .error (.jsError
        "Failed to parse JSON from LLM response: No JSON object found in response")) := by
  refine ⟨?_, ?_, ?_⟩
  · simp only [parseJsonFromLlmResponse, hspan, hparse]
  · unfold regexBraceSpan at hspan
    cases hrest : s.data.dropWhile (fun c => ¬ (c = '{')) with
    | nil => rw [hrest] at hspan; simp at hspan
    | cons c cs =>
      rw [hrest] at hspan
      dsimp only [] at hspan
      cases hrev : (c :: cs).reverse.dropWhile (fun c => ¬ (c = '}')) with
      | nil => rw [hrev] at hspan; simp at hspan
      | cons d ds =>
        rw [hrev] at hspan
        simp only [Option.some.injEq] at hspan
        have ht : t.data = (d :: ds).reverse := by
          rw [← hspan]
        have hc : c = '{' := by
          have := dropWhile_head_false _ _ _ _ hrest
          simpa using this
        have hd : d = '}' := by
          have := dropWhile_head_false _ _ _ _ hrev
          simpa using this
        have h1 : s.data.takeWhile (fun c => ¬ (c = '{')) ++ (c :: cs) =
            s.data := by
          rw [← hrest]
          exact List.takeWhile_append_dropWhile _ _
        have h2 : (c :: cs).reverse.takeWhile (fun c => ¬ (c = '}')) ++
            (d :: ds) = (c :: cs).reverse := by
          rw [← hrev]
          exact List.takeWhile_append_dropWhile _ _
        have h3 : c :: cs = (d :: ds).reverse ++
            ((c :: cs).reverse.takeWhile (fun c => ¬ (c = '}'))).reverse := by
          have := congrArg List.reverse h2
          rw [List.reverse_append, List.reverse_reverse] at this
          exact this.symm
        refine ⟨s.data.takeWhile (fun c => ¬ (c = '{')),
          ((c :: cs).reverse.takeWhile (fun c => ¬ (c = '}'))).reverse,
          ?_, ?_, ?_, ?_, ?_⟩
        · rw [ht]
          conv_lhs => rw [← h1, h3]
          rw [List.append_assoc]
        · apply not_mem_takeWhile_of_pred
          simp
        · intro hmem
          rw [List.mem_reverse] at hmem
          have := List.mem_takeWhile_imp hmem
          simp at this
        · rw [ht]
          cases hrd : (d :: ds).reverse with
          | nil =>
              have hlen := congrArg List.length hrd
              simp at hlen
          | cons x xs =>
              rw [hrd, List.cons_append, List.cons.injEq] at h3
              simp [← h3.1, hc]
        · rw [ht, List.getLast?_reverse]
          simp [hd]
  · intro s2 h2
    unfold parseJsonFromLlmResponse
    rw [h2]

/-- C6 witness. -/
theorem llm_json_extraction_amended_witness :
    parseJsonFromLlmResponse "x\x7b\"a\": 2\x7dy" =
      .ok (.obj [("a", .num (mkRat 2 1))]) ∧
    (∃ pre post, "x\x7b\"a\": 2\x7dy".data = pre ++ "\x7b\"a\": 2\x7d".data ++ post ∧
      '{' ∉ pre ∧ '}' ∉ post ∧
      "\x7b\"a\": 2\x7d".data.head? = some '{' ∧
      "\x7b\"a\": 2\x7d".data.getLast? = some '}') ∧
    (∀ s2, regexBraceSpan s2 = none →
      parseJsonFromLlmResponse s2 = .error (.jsError
        "Failed to parse JSON from LLM response: No JSON object found in response")) :=
  llm_json_extraction_amended "x\x7b\"a\": 2\x7dy" "\x7b\"a\": 2\x7d"
    (.obj [("a", .num (mkRat 2 1))]) (by rfl) (by rfl)

/-! ## C7 support -/

/-- Whether an error is the domain `ValidationError` class. -/
def AppError.isValidationClass : AppError → Bool
  | .validationError _ => true
  | _ => false

/-- The error of a failed computation. -/
def errOf {α : Type} : Except AppError α → Option AppError
  | .ok _ => none
  | .error e => some e

lemma optionMapList_none_of_mem {A B : Type} (f : A → Option B) (l : List A)
    (a : A) (ha : a ∈ l) (hf : f a = none) : optionMapList f l = none := by
  induction l with
  | nil => cases ha
  | cons x xs ih =>
      rcases List.mem_cons.mp ha with rfl | hmem
      · simp [optionMapList, hf]
      · cases hx : f x with
        | none => simp [optionMapList, hx]
        | some y => simp [optionMapList, hx, ih hmem]

lemma lookup_mem {β : Type} (l : List (String × β)) (k : String) (v : β)
    (h : l.lookup k = some v) : (k, v) ∈ l := by
  induction l with
  | nil => cases h
  | cons x xs ih =>
      obtain ⟨k1, v1⟩ := x
      simp only [List.lookup] at h
      cases hbeq : k == k1 with
      | true =>
          rw [hbeq] at h
          have hk : k = k1 := eq_of_beq hbeq
          have hv : v1 = v := by simpa using h
          subst hk
          subst hv
          exact List.mem_cons_self _ _
      | false =>
          rw [hbeq] at h
          have h2 : xs.lookup k = some v := by simpa using h
          exact List.mem_cons_of_mem _ (ih h2)

lemma classifyRecord_table_cases (env : ClassifyEnv) (st : PipelineState)
    (now : Nat) (r : ClassifyRecord) :
    (processClassificationRecord env st now r).1.table = st.table ∨
    (processClassificationRecord env st now r).2 = .ok () := by
  by_cases h1 : (jsTruthy r.msg.documentId && jsTruthy r.msg.bucket &&
      jsTruthy r.msg.key) = true
  · cases hs3 : s3Get st.s3 (r.msg.bucket.getD "") (r.msg.key.getD "") with
    | none => left; simp [processClassificationRecord, h1, hs3]
    | some content =>
      cases hp : parseJsonFromLlmResponse env.llmResponse with
      | error e => left; simp [processClassificationRecord, h1, hs3, hp]
      | ok raw =>
        cases hv : validateBankingClassification raw with
        | error e => left; simp [processClassificationRecord, h1, hs3, hp, hv]
        | ok cls =>
          by_cases hkb : env.kbStoreOk = true
          · by_cases hput : env.s3PutOk = true
            · right
              simp [processClassificationRecord, h1, hs3, hp, hv, hkb, hput]
            · left
              simp [processClassificationRecord, h1, hs3, hp, hv, hkb, hput]
          · left
            simp [processClassificationRecord, h1, hs3, hp, hv, hkb]
  · left
    simp [processClassificationRecord, h1]

/-- A classification response whose `documentType.type` is outside the
fixed enumeration. -/
def badEnumResponse : Json := .obj
  [("overallConfidence", .num (mkRat 92 100)),
   ("documentType", .obj
      [("type", .str "INVOICE"), ("confidence", .num (mkRat 9 10))]),
   ("summary", .str "an invoice")]

/-- A schema-violating response (string where a number is required) that
Ajv with `coerceTypes: true` accepts by coercion. -/
def coercibleResponse : Json := .obj
  [("overallConfidence", .str "0.5"),
   ("documentType", .obj
      [("type", .str "OTHER"), ("confidence", .num (mkRat 1 1))]),
   ("summary", .str "x")]

/-- C7, counterexample: on an out-of-enumeration response the validator
does fail, but the raised error is a plain `Error` (`Schema validation
failed`), not the domain `ValidationError` class the claim names; and the
validator, running Ajv with `coerceTypes: true`, silently coerces a
schema-violating response — a string `"0.5"` in the numeric
`overallConfidence` field is accepted and rewritten to the number `1/2`
instead of being rejected. -/
theorem schema_validation_counterexample :
    validateBankingClassification badEnumResponse =
      .error (.jsError "Schema validation failed") ∧
    (errOf (validateBankingClassification badEnumResponse)).map
      AppError.isValidationClass = some false ∧
    validateBankingClassification coercibleResponse =
      .ok (.obj
        [("overallConfidence", .num (mkRat 1 2)),
         ("documentType", .obj
            [("type", .str "OTHER"), ("confidence", .num (mkRat 1 1))]),
         ("summary", .str "x")]) :=
  ⟨by rfl, by rfl, by rfl⟩

/-- C7, amended: the compiled banking-schema validator rejects — raising a
plain `Error`, not the domain `ValidationError` class — every response
missing a required field, every response whose `documentType.type` string
is outside the fixed enumeration, and every response whose
`overallConfidence` number lies outside `[0, 1]`; however, because Ajv
runs with `coerceTypes: true`, coercible type mismatches are silently
converted rather than rejected.  A record whose response fails parsing or
validation ends in a thrown error with the job table untouched, so such a
response never reaches status SUCCEEDED. -/
theorem schema_validation_amended
    (fields dfields : List (String × Json)) (ty : String) (q : Rat) :
    (fields.lookup "summary" = none →
      validateBankingClassification (.obj fields) =
        .error (.jsError "Schema validation failed")) ∧
    (fields.lookup "documentType" = some (.obj dfields) →
      dfields.lookup "type" = some (.str ty) →
      bankingTypeEnum.contains ty = false →
      validateBankingClassification (.obj fields) =
        .error (.jsError "Schema validation failed")) ∧
    (fields.lookup "overallConfidence" = some (.num q) →
      (q < 0 ∨ 1 < q) →
      validateBankingClassification (.obj fields) =
        .error (.jsError "Schema validation failed")) ∧
    (∀ (env : ClassifyEnv) (st : PipelineState) (now : Nat)
       (r : ClassifyRecord) (e : AppError),
      (processClassificationRecord env st now r).2 = .error e →
      (processClassificationRecord env st now r).1.table = st.table) ∧
    (∀ (env : ClassifyEnv) (st : PipelineState) (now : Nat)
       (r : ClassifyRecord) (raw : Json) (e : AppError),
      (jsTruthy r.msg.documentId && jsTruthy r.msg.bucket &&
        jsTruthy r.msg.key) = true →
      (∃ c, s3Get st.s3 (r.msg.bucket.getD "") (r.msg.key.getD "") = some c) →
      ((parseJsonFromLlmResponse env.llmResponse = .error e →
         processClassificationRecord env st now r = (st, .error e)) ∧
       (parseJsonFromLlmResponse env.llmResponse = .ok raw →
        validateBankingClassification raw = .error e →
        processClassificationRecord env st now r = (st, .error e)))) := by
  have hmk0 : mkRat 0 1 = (0 : Rat) := by
    rw [Rat.mkRat_one]
    rfl
  have hmk1 : mkRat 1 1 = (1 : Rat) := by
    rw [Rat.mkRat_one]
    rfl
  refine ⟨?_, ?_, ?_, ?_, ?_⟩
  · intro hmiss
    unfold validateBankingClassification
    have hnone : ajvValidate 16 bankingClassificationSchema (.obj fields) =
        none := by
      rw [show (16 : Nat) = 15 + 1 from rfl]
      unfold bankingClassificationSchema
      rw [ajvValidate_obj]
      rw [if_neg]
      simp [List.all_cons, List.all_nil, hmiss]
    rw [hnone]
  · intro hdt hty henum
    unfold validateBankingClassification
    have hnone : ajvValidate 16 bankingClassificationSchema (.obj fields) =
        none := by
      rw [show (16 : Nat) = 15 + 1 from rfl]
      unfold bankingClassificationSchema
      rw [ajvValidate_obj]
      by_cases hall : (["overallConfidence", "documentType", "summary"].all
          (fun k => (fields.lookup k).isSome)) = true
      · rw [if_pos hall]
        have hmem := lookup_mem fields "documentType" (Json.obj dfields) hdt
        refine Eq.trans (congrArg (Option.map Json.obj)
          (optionMapList_none_of_mem _ fields
            ("documentType", Json.obj dfields) hmem ?_)) rfl
        show (ajvValidate 15
            (.sObject ["type", "confidence"]
              [("type", .sString none (some bankingTypeEnum)),
               ("confidence", .sNumber (some (mkRat 0 1)) (some (mkRat 1 1))),
               ("alternatives", .sObject [] []
                  (some (.sNumber (some (mkRat 0 1)) (some (mkRat 1 1)))))]
              none)
            (Json.obj dfields)).map (fun w => ("documentType", w)) = none
        suffices hin : ajvValidate 15
            (.sObject ["type", "confidence"]
              [("type", .sString none (some bankingTypeEnum)),
               ("confidence", .sNumber (some (mkRat 0 1)) (some (mkRat 1 1))),
               ("alternatives", .sObject [] []
                  (some (.sNumber (some (mkRat 0 1)) (some (mkRat 1 1)))))]
              none)
            (Json.obj dfields) = none by
          rw [hin]
          rfl
        rw [show (15 : Nat) = 14 + 1 from rfl]
        rw [ajvValidate_obj]
        by_cases hall2 : (["type", "confidence"].all
            (fun k => (dfields.lookup k).isSome)) = true
        · rw [if_pos hall2]
          have hmem2 := lookup_mem dfields "type" (Json.str ty) hty
          refine Eq.trans (congrArg (Option.map Json.obj)
            (optionMapList_none_of_mem _ dfields
              ("type", Json.str ty) hmem2 ?_)) rfl
          show (ajvValidate 14 (.sString none (some bankingTypeEnum))
              (Json.str ty)).map (fun w => ("type", w)) = none
          suffices hin2 : ajvValidate 14
              (.sString none (some bankingTypeEnum)) (Json.str ty) = none by
            rw [hin2]
            rfl
          rw [show (14 : Nat) = 13 + 1 from rfl]
          rw [ajvValidate_str]
          simp
          intro hmem3
          have htrue : bankingTypeEnum.contains ty = true :=
            List.elem_eq_true_of_mem hmem3
          rw [henum] at htrue
          cases htrue
        · rw [if_neg (by simpa using hall2)]
      · rw [if_neg (by simpa using hall)]
    rw [hnone]
  · intro hoc hq
    unfold validateBankingClassification
    have hnone : ajvValidate 16 bankingClassificationSchema (.obj fields) =
        none := by
      rw [show (16 : Nat) = 15 + 1 from rfl]
      unfold bankingClassificationSchema
      rw [ajvValidate_obj]
      by_cases hall : (["overallConfidence", "documentType", "summary"].all
          (fun k => (fields.lookup k).isSome)) = true
      · rw [if_pos hall]
        have hmem := lookup_mem fields "overallConfidence" (Json.num q) hoc
        refine Eq.trans (congrArg (Option.map Json.obj)
          (optionMapList_none_of_mem _ fields
            ("overallConfidence", Json.num q) hmem ?_)) rfl
        show (ajvValidate 15
            (.sNumber (some (mkRat 0 1)) (some (mkRat 1 1)))
            (Json.num q)).map (fun w => ("overallConfidence", w)) = none
        suffices hin : ajvValidate 15
            (.sNumber (some (mkRat 0 1)) (some (mkRat 1 1)))
            (Json.num q) = none by
          rw [hin]
          rfl
        rw [show (15 : Nat) = 14 + 1 from rfl]
        rw [ajvValidate_num]
        rcases hq with hlt | hgt
        · rw [if_neg]
          simp only [Bool.and_eq_true, decide_eq_true_eq, hmk0, hmk1]
          intro hc
          exact absurd hc.1 (not_le.mpr hlt)
        · rw [if_neg]
          simp only [Bool.and_eq_true, decide_eq_true_eq, hmk0, hmk1]
          intro hc
          exact absurd hc.2 (not_le.mpr hgt)
      · rw [if_neg (by simpa using hall)]
    rw [hnone]
  · intro env st now r e hres
    rcases classifyRecord_table_cases env st now r with h | h
    · exact h
    · rw [h] at hres
      cases hres
  · intro env st now r raw e htr hex
    obtain ⟨c, hc⟩ := hex
    constructor
    · intro hp
      unfold processClassificationRecord
      rw [if_neg (by simp [htr])]
      simp only [hc, hp]
    · intro hp hv
      unfold processClassificationRecord
      rw [if_neg (by simp [htr])]
      simp only [hc, hp, hv]

/-- Response fields violating all three checked schema conditions at
once: out-of-range confidence, out-of-enumeration type, missing summary. -/
def tripleBadFields : List (String × Json) :=
  [("overallConfidence", .num (mkRat 3 2)),
   ("documentType", .obj
      [("type", .str "INVOICE"), ("confidence", .num (mkRat 1 1))])]

/-- A classification environment whose LLM response holds no JSON. -/
def classifyEnvNoJson : ClassifyEnv :=
  { kbId := none, llmResponse := "no json here", kbStoreOk := true,
    s3PutOk := true }

/-- A pipeline state whose store holds one formatted document. -/
def stateB : PipelineState :=
  { table := [], s3 := s3Put [] "b" "doc.json" (.str "content"), kb := [] }

/-- A well-formed classify record pointing at the stored document. -/
def okRecord : ClassifyRecord :=
  { messageId := "m2",
    msg := { documentId := some "d", bucket := some "b",
             key := some "doc.json" } }

/-- C7 witness. -/
theorem schema_validation_amended_witness :
    validateBankingClassification (.obj tripleBadFields) =
      .error (.jsError "Schema validation failed") ∧
    validateBankingClassification (.obj tripleBadFields) =
      .error (.jsError "Schema validation failed") ∧
    validateBankingClassification (.obj tripleBadFields) =
      .error (.jsError "Schema validation failed") ∧
    (processClassificationRecord classifyEnvNoJson stateB 9 okRecord).1.table
      = stateB.table ∧
    processClassificationRecord classifyEnvNoJson stateB 9 okRecord =
      (stateB, .error (.jsError
        "Failed to parse JSON from LLM response: No JSON object found in response")) := by
  have T := schema_validation_amended tripleBadFields
    [("type", Json.str "INVOICE"), ("confidence", Json.num (mkRat 1 1))]
    "INVOICE" (mkRat 3 2)
  refine ⟨T.1 rfl, T.2.1 rfl rfl rfl, T.2.2.1 rfl (Or.inr ?_), ?_, ?_⟩
  · rw [Rat.mkRat_eq_div]
    norm_num
  · exact T.2.2.2.1 classifyEnvNoJson stateB 9 okRecord
      (.jsError
        "Failed to parse JSON from LLM response: No JSON object found in response")
      (by rfl)
  · exact (T.2.2.2.2 classifyEnvNoJson stateB 9 okRecord .null
      (.jsError
        "Failed to parse JSON from LLM response: No JSON object found in response")
      (by rfl) ⟨.str "content", by rfl⟩).1 (by rfl)

end DocProc
